import Mathlib

/-!
# Verification of the Vira Services field-modification subsystem

A shallow embedding, in Lean 4, of the field-modification subsystem of the
Vira Services code generator (`utilities/field_modifier.py` and
`utilities/file_updater.py`), together with proofs settling the spec claims
about it.

Conventions of the embedding:
* Python dicts with a known key set become structures of `Option` fields
  (`none` = key absent).
* Python string primitives (`in`, `.lower()`, `.title()`, `.capitalize()`,
  `list.insert` with clamping/negative indices, `str.strip`) are reproduced
  as executable Lean functions on `String`/`List Char`.
* The file system is an association list from paths (component lists) to
  file contents; directories exist implicitly.
* I/O steps of the orchestrator (`process_field_operations`) take their
  outcomes from an explicit environment record, and the project-tree side
  effects are recorded as an event trace.
-/

set_option autoImplicit false

namespace Vira

/-! ## Python string primitives -/

/-- Substring occurrence on char lists: `hasSubList pat l` is true iff `pat`
occurs contiguously in `l` (Python's `pat in l`). -/
def hasSubList (pat : List Char) : List Char → Bool
  | [] => pat.isEmpty
  | c :: cs => pat.isPrefixOf (c :: cs) || hasSubList pat cs

/-- Python's `pat in s` substring test. -/
def containsSubstr (s pat : String) : Bool :=
  hasSubList pat.data s.data

/-- Python's whitespace class (`\\s` of `re`, `str.strip`/`str.isspace`
on ASCII): space, tab, newline, carriage return, vertical tab, form feed. -/
def wsChar (c : Char) : Bool :=
  c = ' ' || c = '\t' || c = '\n' || c = '\r' || c = '\x0b' || c = '\x0c'

/-- `s.startswith(pre)` at the character-list level. -/
def strStartsWith (s pre : String) : Bool :=
  pre.data.isPrefixOf s.data

/-- `s.endswith(suf)` at the character-list level. -/
def strEndsWith (s suf : String) : Bool :=
  suf.data.isSuffixOf s.data

/-- Python's `str.strip()` on ASCII whitespace. -/
def pyStrip (s : String) : String :=
  ⟨((s.data.dropWhile wsChar).reverse.dropWhile wsChar).reverse⟩

/-- Worker for `splitOnChar`, accumulating the current component reversed. -/
def splitOnCharGo (sep : Char) : List Char → List Char → List String
  | [], acc => [⟨acc.reverse⟩]
  | c :: cs, acc =>
    if c = sep then ⟨acc.reverse⟩ :: splitOnCharGo sep cs []
    else splitOnCharGo sep cs (c :: acc)

/-- Python's `s.split(sep)` for a one-character separator. -/
def splitOnChar (sep : Char) (s : String) : List String :=
  splitOnCharGo sep s.data []

/-- Python's `s.replace(a, b)` for one-character pattern and replacement
(single-character occurrences never overlap, so this is a character map). -/
def pyReplaceChar (a b : Char) (s : String) : String :=
  ⟨s.data.map (fun c => if c = a then b else c)⟩

/-- Python's `sep.join(parts)`. -/
def joinWith (sep : String) : List String → String
  | [] => ""
  | [x] => x
  | x :: xs => x ++ sep ++ joinWith sep xs

/-- Python's `str.lower()` restricted to ASCII, at the character-list
level (kept executable under kernel reduction). -/
def pyLower (s : String) : String :=
  ⟨s.data.map Char.toLower⟩

/-- Python's `str.upper()` restricted to ASCII. -/
def pyUpper (s : String) : String :=
  ⟨s.data.map Char.toUpper⟩

/-- Python's `str.capitalize()`: first character uppercased, the rest
lowercased. -/
def pyCapitalize (w : String) : String :=
  match w.data with
  | [] => ""
  | c :: cs => ⟨c.toUpper :: cs.map Char.toLower⟩

/-- `_to_camel_case` from the source: split on underscores, keep the first
component, capitalize the rest. -/
def toCamelCase (s : String) : String :=
  match splitOnChar '_' s with
  | [] => ""
  | w :: ws => w ++ String.join (ws.map pyCapitalize)

/-- `_to_pascal_case` from the source: split on underscores and capitalize
every component. -/
def toPascalCase (s : String) : String :=
  String.join ((splitOnChar '_' s).map pyCapitalize)

/-- Helper for `pyTitle`: `atStart` is true when the previous character was
not alphabetic. -/
def pyTitleGo : Bool → List Char → List Char
  | _, [] => []
  | atStart, c :: cs =>
    if c.isAlpha then
      (if atStart then c.toUpper else c.toLower) :: pyTitleGo false cs
    else c :: pyTitleGo true cs

/-- Python's `str.title()` restricted to ASCII: uppercase each alphabetic
character that follows a non-alphabetic one, lowercase the others. -/
def pyTitle (s : String) : String :=
  ⟨pyTitleGo true s.data⟩

/-! ## FieldOperation (`field_modifier.FieldOperation`) -/

/-- The nested `field` dict carried by an add operation. Each Python key is
an `Option` (`none` = key absent); the nested `validation` dict is flattened
into `required?`, `maxLength?` and `minValue?`, with `hasValidation`
recording whether the `validation` key itself is present. -/
structure FieldDesc where
  name? : Option String
  sqlType? : Option String
  javaType? : Option String
  nullable? : Option Bool
  defaultValue? : Option String
  primaryKey? : Option Bool
  autoGenerated? : Option Bool
  updateOnModify? : Option Bool
  descr? : Option String
  hasValidation : Bool := false
  required? : Option Bool := none
  maxLength? : Option Nat := none
  minValue? : Option Int := none
deriving Repr, DecidableEq, Inhabited

/-- The `changes` dict carried by an update operation: the `type` key and a
flattened optional nested `validation` dict. -/
structure Changes where
  newType? : Option String
  hasValidation : Bool := false
  required? : Option Bool := none
  maxLength? : Option Nat := none
deriving Repr, DecidableEq, Inhabited

/-- The `field_data` dict of a single raw operation (the keys the code
reads: `field`, `field_name`, `changes`). -/
structure OpData where
  field? : Option FieldDesc
  fieldName? : Option String
  changes? : Option Changes
deriving Repr, DecidableEq, Inhabited

/-- A validated `FieldOperation`: `action` is the lowercased action tag. -/
structure FieldOperation where
  action : String
  fieldData : OpData
deriving Repr, DecidableEq, Inhabited

/-- The valid action tags. -/
def validActions : List String := ["add", "update", "remove"]

/-- `FieldOperation.__init__`/`validate`: lowercase the action, then check
the variant-specific required keys, raising `ValueError` (modelled as
`Except.error` with the message text) when one is missing. For an add
operation the required keys live in `field_data.get('field', {})`. -/
def mkFieldOperation (action : String) (d : OpData) : Except String FieldOperation :=
  let a := pyLower action
  if ¬ validActions.contains a then
    .error ("Invalid action: " ++ a ++
      ". Must be one of [\x27add\x27, \x27update\x27, \x27remove\x27]")
  else if a = "add" then
    let fd := d.field?.getD default
    if fd.name?.isSome && fd.sqlType?.isSome && fd.javaType?.isSome then
      .ok ⟨a, d⟩
    else
      .error "Add operation requires: [\x27name\x27, \x27type\x27, \x27javaType\x27]"
  else if a = "update" then
    if d.fieldName?.isNone then
      .error "Update operation requires \x27field_name\x27"
    else if d.changes?.isNone then
      .error "Update operation requires \x27changes\x27"
    else .ok ⟨a, d⟩
  else
    if d.fieldName?.isNone then
      .error "Remove operation requires \x27field_name\x27"
    else .ok ⟨a, d⟩

/-! ## Safety validation (`field_modifier.DependencyChecker`) -/

/-- A migration file on disk: name and content. -/
structure MigrationFile where
  fname : String
  content : String
deriving Repr, DecidableEq, Inhabited

/-- `DependencyChecker._is_primary_key`: the name-based heuristic
(`field_name.lower() in ['id', 'uuid']`); the service info and project root
parameters are unused by the source. -/
def isPrimaryKeyName (fieldName : String) : Bool :=
  ["id", "uuid"].contains (pyLower fieldName)

/-- `DependencyChecker._has_foreign_key_references`: scan the `*.sql` files
of the migration directory for the literal pattern
`REFERENCES <table>(<field>)`. -/
def hasForeignKeyRefs (fieldName tableName : String) (migFiles : List MigrationFile) : Bool :=
  let pat := "REFERENCES " ++ tableName ++ "(" ++ fieldName ++ ")"
  (migFiles.filter (fun mf => strEndsWith mf.fname ".sql")).any
    (fun mf => containsSubstr mf.content pat)

/-- `DependencyChecker._is_type_change_safe`: safe iff the uppercased new
type contains `VARCHAR`; everything else is conservatively unsafe. -/
def isTypeChangeSafe (newType : String) : Bool :=
  containsSubstr (pyUpper newType) "VARCHAR"

/-- `DependencyChecker.validate_operation_safety`: the list of error strings
for one operation (empty = safe). Remove: primary-key heuristic and
foreign-key scan. Update: primary-key heuristic and, when `changes`
contains a `type`, the type-change safety heuristic. Add: no checks. -/
def validateOperationSafety (op : FieldOperation) (tableName : String)
    (migFiles : List MigrationFile) : List String :=
  if op.action = "remove" then
    let fieldName := op.fieldData.fieldName?.getD ""
    (if isPrimaryKeyName fieldName then
      ["Cannot remove primary key field: " ++ fieldName] else []) ++
    (if hasForeignKeyRefs fieldName tableName migFiles then
      ["Field " ++ fieldName ++ " is referenced by foreign keys in other tables"] else [])
  else if op.action = "update" then
    let fieldName := op.fieldData.fieldName?.getD ""
    let changes := op.fieldData.changes?.getD default
    (if isPrimaryKeyName fieldName then
      ["Cannot modify primary key field: " ++ fieldName] else []) ++
    (match changes.newType? with
     | some t =>
       if ¬ isTypeChangeSafe t then
         ["Type change for field " ++ fieldName ++ " may cause data loss"]
       else []
     | none => [])
  else []

/-! ## Impact analysis (`field_modifier.ImpactAnalyzer`) -/

/-- The target-service descriptor as used after structural validation:
`name` and `table` are present, `entity` and `description` optional. -/
structure ServiceInfo where
  name : String
  table : String
  entity? : Option String
  descr? : Option String
deriving Repr, DecidableEq, Inhabited

/-- One entry of `analysis["migration_changes"]`. -/
structure MigrationChange where
  kind : String
  fieldName : String
  sql : String
deriving Repr, DecidableEq, Inhabited

/-- The impact-analysis report built by `analyze_field_operations`. -/
structure ImpactAnalysis where
  serviceName : String
  tableName : String
  operationsCount : Nat
  filesToModify : List String
  migrationChanges : List MigrationChange
  potentialRisks : List String
  dependencyImpacts : List String
  breakingChanges : List String
  validationResults : List String
deriving Repr, DecidableEq, Inhabited

/-- `ImpactAnalyzer._analyze_single_operation`: the (migration-change, risk,
breaking-change) entries this one operation appends to the report. -/
def analyzeSingleOperation (si : ServiceInfo) (op : FieldOperation) :
    List MigrationChange × List String × List String :=
  if op.action = "add" then
    let f := op.fieldData.field?.getD default
    let nm := f.name?.getD ""
    let changes : List MigrationChange :=
      [⟨"ADD_COLUMN", nm,
        "ALTER TABLE " ++ si.table ++ " ADD COLUMN " ++ nm ++ " " ++ f.sqlType?.getD ""⟩]
    let risks : List String :=
      if ¬ f.nullable?.getD true && f.defaultValue?.isNone then
        ["Adding non-nullable field \x27" ++ nm ++
         "\x27 without default value may fail if table has data"]
      else []
    (changes, risks, [])
  else if op.action = "update" then
    let fn := op.fieldData.fieldName?.getD ""
    let ch := op.fieldData.changes?.getD default
    match ch.newType? with
    | some t =>
      ([⟨"MODIFY_COLUMN", fn,
         "ALTER TABLE " ++ si.table ++ " ALTER COLUMN " ++ fn ++ " TYPE " ++ t⟩],
       ["Changing type of field \x27" ++ fn ++ "\x27 may cause data loss if incompatible"],
       [])
    | none => ([], [], [])
  else if op.action = "remove" then
    let fn := op.fieldData.fieldName?.getD ""
    ([⟨"DROP_COLUMN", fn,
       "-- ALTER TABLE " ++ si.table ++ " DROP COLUMN " ++ fn ++
       "; -- REQUIRES MANUAL CONFIRMATION"⟩],
     [],
     ["Removing field \x27" ++ fn ++ "\x27 will break any code that references it"])
  else ([], [], [])

/-- `ImpactAnalyzer._get_affected_files`: the fixed, convention-based list
of dependent file paths; depends only on the service, not the operations. -/
def getAffectedFiles (si : ServiceInfo) : List String :=
  let serviceName := si.name
  let entityName := si.entity?.getD (pyCapitalize serviceName)
  [ "src/main/java/com/vira/" ++ serviceName ++ "/model/" ++ entityName ++ ".java",
    "src/main/java/com/vira/" ++ serviceName ++ "/dto/" ++ entityName ++ "Request.java",
    "src/main/java/com/vira/" ++ serviceName ++ "/dto/" ++ entityName ++ "Response.java",
    "src/main/java/com/vira/" ++ serviceName ++ "/service/" ++ entityName ++ "Service.java",
    "src/main/java/com/vira/" ++ serviceName ++ "/repository/" ++ entityName ++ "Repository.java",
    "src/main/java/com/vira/" ++ serviceName ++ "/controller/" ++ entityName ++ "Controller.java",
    "src/test/java/com/vira/" ++ serviceName ++ "/service/" ++ entityName ++ "ServiceTest.java",
    "src/test/java/com/vira/" ++ serviceName ++ "/controller/" ++ entityName ++ "ControllerTest.java",
    "src/main/resources/frontend/api/" ++ pyLower entityName ++ "ApiService.js" ]

/-- `ImpactAnalyzer.analyze_field_operations`: fold the single-operation
analysis over the operation list (the code appends into the report dict per
operation, which concatenates the per-operation deltas in order), then set
the affected-file list. -/
def analyzeFieldOperations (si : ServiceInfo) (ops : List FieldOperation) : ImpactAnalysis :=
  { serviceName := si.name
    tableName := si.table
    operationsCount := ops.length
    filesToModify := getAffectedFiles si
    migrationChanges := ops.flatMap (fun op => (analyzeSingleOperation si op).1)
    potentialRisks := ops.flatMap (fun op => (analyzeSingleOperation si op).2.1)
    dependencyImpacts := []
    breakingChanges := ops.flatMap (fun op => (analyzeSingleOperation si op).2.2)
    validationResults := [] }

/-! ## Migration versioning (`FieldModifier._generate_migration_file`) -/

/-- Value of a digit run (`int(match.group(1))`). -/
def digitsToNat (ds : List Char) : Nat :=
  ds.foldl (fun n c => n * 10 + (c.toNat - 48)) 0

/-- `re.match(r'V(\d+)__.*\.sql', name)`: an anchored match of `V`, a
nonempty digit run, `__`, then any characters (no newline) containing
`.sql`; returns the captured version number. -/
def migrationVersionOf (nm : String) : Option Nat :=
  match nm.data with
  | 'V' :: rest =>
    let ds := rest.takeWhile Char.isDigit
    let rest2 := rest.dropWhile Char.isDigit
    if ds.isEmpty then none
    else if "__".data.isPrefixOf rest2 then
      if hasSubList ".sql".data ((rest2.drop 2).takeWhile (fun c => c ≠ '\n')) then
        some (digitsToNat ds)
      else none
    else none
  | _ => none

/-- `migration_dir.glob("V*.sql")`: the file names starting with `V` and
ending in `.sql`. -/
def globVSql (names : List String) : List String :=
  names.filter (fun nm => strStartsWith nm "V" && strEndsWith nm ".sql")

/-- The version numbers collected from the existing migration file names. -/
def migrationVersionNumbers (names : List String) : List Nat :=
  (globVSql names).filterMap migrationVersionOf

/-- The next migration version: `max(version_numbers) + 1` when any existing
file matches the pattern, otherwise `1` (both the no-glob-match and the
no-regex-match branches of the source yield `1`). -/
def nextMigrationVersion (names : List String) : Nat :=
  match migrationVersionNumbers names with
  | [] => 1
  | vs => vs.foldl max 0 + 1

/-- The generated migration file name:
`V<n>__Update_<service>_<table>_fields.sql`. -/
def migrationFilename (serviceName tableName : String) (n : Nat) : String :=
  "V" ++ toString n ++ "__Update_" ++ serviceName ++ "_" ++ tableName ++ "_fields.sql"

/-! ## Snapshot manager (`field_modifier.BackupManager`)

The project tree is an association list from project-relative paths (lists
of path components) to file contents; a path is a directory exactly when
entries exist strictly below it. -/

/-- A project-relative path, as components. -/
abbrev FPath := List String

/-- A file tree: association list path ↦ content. -/
abbrev FS := List (FPath × String)

/-- Look up a file's content (first matching entry). -/
def fsLookup : FS → FPath → Option String
  | [], _ => none
  | (p, c) :: rest, q => if p = q then some c else fsLookup rest q

/-- The fixed convention-derived roots backed up for a service
(`files_to_backup` in `create_backup`). -/
def backupRoots (serviceName : String) : List FPath :=
  [ ["src", "main", "java", "com", "vira", serviceName],
    ["src", "test", "java", "com", "vira", serviceName],
    ["src", "main", "resources", "frontend", "api"],
    ["src", "main", "resources", "db", "migration"] ]

/-- Restrict a tree to the paths satisfying a key predicate. -/
def keyFilter (f : FPath → Bool) (fs : FS) : FS :=
  fs.filter (fun pc => f pc.1)

/-- `shutil.copytree`/`copy2` of one root: every live file at or under the
root (a nonexistent root contributes nothing and is skipped). -/
def copyTree (live : FS) (root : FPath) : FS :=
  keyFilter (fun p => root.isPrefixOf p) live

/-- A snapshot directory plus its manifest: the backup id, the service
name, the recorded `files_backed_up` roots, and the copied tree (keyed by
project-relative path, as the backup directory mirrors the layout). -/
structure Snapshot where
  backupId : String
  serviceName : String
  filesBackedUp : List FPath
  files : FS
deriving Repr, Inhabited

/-- `BackupManager.create_backup`: copy each root subtree into the backup
directory and record the manifest. The timestamped id is a parameter. -/
def createBackup (serviceName backupId : String) (live : FS) : Snapshot :=
  { backupId := backupId
    serviceName := serviceName
    filesBackedUp := backupRoots serviceName
    files := (backupRoots serviceName).foldl (fun acc r => acc ++ copyTree live r) [] }

/-- `backup_file.exists()` inside the backup tree: some file at or under
the path. -/
def existsUnderB (fs : FS) (r : FPath) : Bool :=
  fs.any (fun pc => r.isPrefixOf pc.1)

/-- `backup_file.is_dir()` inside the backup tree: some file strictly under
the path. -/
def isDirB (fs : FS) (r : FPath) : Bool :=
  fs.any (fun pc => r.isPrefixOf pc.1 && pc.1 != r)

/-- `shutil.copy2` onto a single live file path: overwrite (or create) the
file. -/
def setFile (live : FS) (p : FPath) (c : String) : FS :=
  (p, c) :: keyFilter (fun q => q != p) live

/-- One iteration of the restore loop for a recorded path `r`: when the
backup holds a directory there, delete the live subtree and copy the backup
subtree in; when it holds a single file, overwrite it; when it holds
nothing, skip. -/
def restoreOne (bk : FS) (live : FS) (r : FPath) : FS :=
  if existsUnderB bk r then
    if isDirB bk r then
      keyFilter (fun p => !(r.isPrefixOf p)) live ++ keyFilter (fun p => r.isPrefixOf p) bk
    else
      match fsLookup bk r with
      | some c => setFile live r c
      | none => live
  else live

/-- `BackupManager.restore_backup`: return `false` (leaving the tree as-is)
when the backup id is unknown; otherwise restore every recorded path from
the snapshot and return `true`. -/
def restoreBackup (snaps : List Snapshot) (backupId : String) (live : FS) : Bool × FS :=
  match snaps.find? (fun s => s.backupId = backupId) with
  | none => (false, live)
  | some s => (true, s.filesBackedUp.foldl (restoreOne s.files) live)

/-! ## Orchestration (`FieldModifier.process_field_operations`)

The pure steps (structural validation, operation construction, impact
analysis, safety validation) are embedded directly; the I/O steps draw
their outcomes from a `ProcEnv` record, and the project-tree side effects
are recorded as an ordered event trace. In the source, all project-tree
mutations happen inside `_apply_field_operations`, which runs only after
`create_backup` succeeded. -/

/-- One raw entry of the `field_operations` list: the `action` key (maybe
absent) plus the rest of the dict. -/
structure RawOperation where
  action? : Option String
  opData : OpData
deriving Repr, DecidableEq, Inhabited

/-- The raw `target_service` dict. -/
structure TargetService where
  name? : Option String
  table? : Option String
  entity? : Option String
  descr? : Option String
deriving Repr, DecidableEq, Inhabited

/-- The parsed operations-request file, with `options.dry_run` and
`options.auto_confirm` defaulting to false. -/
structure OpsRequest where
  operationType? : Option String
  targetService? : Option TargetService
  fieldOperations? : Option (List RawOperation)
  dryRun : Bool := false
  autoConfirm : Bool := false
deriving Repr, DecidableEq, Inhabited

/-- `FieldModifier._validate_operations_file`: required keys, the
`modify_service` tag, required target-service keys, and a nonempty
operation list. -/
def validateOperationsFile (d : OpsRequest) : Except String Unit :=
  if d.operationType?.isNone then
    .error "Missing required field: operation_type"
  else if d.targetService?.isNone then
    .error "Missing required field: target_service"
  else if d.fieldOperations?.isNone then
    .error "Missing required field: field_operations"
  else if d.operationType? ≠ some "modify_service" then
    .error ("Invalid operation_type: " ++ d.operationType?.getD "")
  else
    let ts := d.targetService?.getD default
    if ts.name?.isNone then
      .error "Missing required target_service field: name"
    else if ts.table?.isNone then
      .error "Missing required target_service field: table"
    else if (d.fieldOperations?.getD []).isEmpty then
      .error "No field operations specified"
    else .ok ()

/-- The service info extracted from a validated request (after validation
`name` and `table` are present). -/
def serviceInfoOf (req : OpsRequest) : ServiceInfo :=
  let ts := req.targetService?.getD default
  { name := ts.name?.getD ""
    table := ts.table?.getD ""
    entity? := ts.entity?
    descr? := ts.descr? }

/-- `[FieldOperation(op['action'], op) for op in data['field_operations']]`:
build the operations in order; a missing `action` key or a construction
failure propagates as the first error. -/
def parseFieldOperations : List RawOperation → Except String (List FieldOperation)
  | [] => .ok []
  | r :: rs =>
    match r.action? with
    | none => .error "KeyError: \x27action\x27"
    | some a => do
      let op ← mkFieldOperation a r.opData
      let ops ← parseFieldOperations rs
      pure (op :: ops)

/-- Outcomes of the I/O steps of one `process_field_operations` run. -/
structure ProcEnv where
  /-- The parsed operations file; `none` models a read/JSON failure. -/
  request? : Option OpsRequest
  /-- The `*.sql` files in the live migration directory (read by the
  foreign-key scan). -/
  migrationFiles : List MigrationFile
  /-- The answer of the interactive confirmation gate, when invoked. -/
  userConfirms : Bool
  /-- `some id` when `create_backup` succeeds returning `id`; `none` when
  it raises (after deleting the partial snapshot directory). -/
  backupOutcome? : Option String
  /-- Whether `_apply_field_operations` raises. -/
  applyRaises : Bool
  /-- Whether `restore_backup` succeeds, when invoked. -/
  restoreSucceeds : Bool
deriving Repr, DecidableEq, Inhabited

/-- Project-tree side effects of one run, in order. -/
inductive FMEvent
  /-- `create_backup` returned this id. -/
  | snapshotCreated (backupId : String)
  /-- `_apply_field_operations` ran: dependent files may be mutated from
  this point on. -/
  | filesMutated
  /-- `restore_backup` was invoked with this id and this outcome. -/
  | restoreInvoked (backupId : String) (succeeded : Bool)
deriving Repr, DecidableEq, Inhabited

/-- The safety-validation errors collected over all operations
(`validate_operation_safety` per operation, extended in order). -/
def safetyErrors (env : ProcEnv) (req : OpsRequest) (ops : List FieldOperation) : List String :=
  ops.flatMap (fun op => validateOperationSafety op (serviceInfoOf req).table env.migrationFiles)

/-- `FieldModifier.process_field_operations`: returns the success flag and
the ordered trace of project-tree side effects. Every failure before
`create_backup` (read error, structural validation, operation construction,
nonempty safety errors, user abort) returns `false` with no side effects;
dry-run returns `true` with no side effects; an apply failure after the
snapshot triggers `restore_backup` on that snapshot's id and returns
`false` whatever the restore outcome. -/
def processFieldOperations (env : ProcEnv) : Bool × List FMEvent :=
  match env.request? with
  | none => (false, [])
  | some req =>
    match validateOperationsFile req with
    | .error _ => (false, [])
    | .ok _ =>
      match parseFieldOperations (req.fieldOperations?.getD []) with
      | .error _ => (false, [])
      | .ok ops =>
        if ¬ (safetyErrors env req ops).isEmpty then (false, [])
        else if req.dryRun then (true, [])
        else if !req.autoConfirm && !env.userConfirms then (false, [])
        else
          match env.backupOutcome? with
          | none => (false, [])
          | some bid =>
            if env.applyRaises then
              (false, [.snapshotCreated bid, .filesMutated,
                       .restoreInvoked bid env.restoreSucceeds])
            else
              (true, [.snapshotCreated bid, .filesMutated])

/-! ## File rewriting (`file_updater.JavaFileUpdater`)

The appliers receive the parsed structure of the file (its line list plus
the extracted fields, each with its captured line number), exactly as in
the source, where `parse_java_file` produces the structure consumed by
`_apply_model_operations` / `_apply_dto_operations` /
`_apply_service_operations`. -/

/-- One extracted field of a parsed Java file: name, declared type, and the
line index captured at parse time. -/
structure JField where
  name : String
  jtype : String
  lineNumber : Nat
deriving Repr, DecidableEq, Inhabited

/-- The parsed structure of one Java file (the parts the appliers read). -/
structure JStructure where
  lines : List String
  fields : List JField
deriving Repr, DecidableEq, Inhabited

/-- `{` as a character. -/
def openBrace : Char := Char.ofNat 123

/-- `}` as a character. -/
def closeBrace : Char := Char.ofNat 125

/-- Number of occurrences of a character in a line (`str.count`). -/
def countChar (l : String) (c : Char) : Nat :=
  l.data.count c

/-- Python's `list.insert(idx, x)`: negative indices count from the end,
out-of-range indices clamp. -/
def pyInsert (lines : List String) (idx : Int) (x : String) : List String :=
  let n : Int := lines.length
  let k : Nat := (if idx < 0 then max 0 (n + idx) else min idx n).toNat
  lines.take k ++ x :: lines.drop k

/-- Python's `list.pop(i)` for an in-range index. -/
def popAt (lines : List String) (i : Nat) : List String :=
  lines.take i ++ lines.drop (i + 1)

/-- Insert a block of lines one by one at `pos + j` (the per-line insert
loops of the source). -/
def insertLinesAt (ls : List String) (pos : Int) (block : List String) : List String :=
  block.enum.foldl (fun acc jb => pyInsert acc (pos + (jb.1 : Int)) jb.2) ls

/-- The brace-balance scan shared by `_add_field_validation` and
`_add_field_mapping`: starting at line `j` with counter `cnt`, walk forward
adding the `{` count of each line and subtracting its `}` count, stopping
at the first line whose `}` brings the counter to zero; returns the index
where the loop stopped (the list length if it never did). -/
def braceScanGo : List String → Int → Nat → Nat
  | [], _, j => j
  | l :: ls, cnt, j =>
    let cnt1 := if countChar l openBrace > 0 then cnt + (countChar l openBrace : Int) else cnt
    if countChar l closeBrace > 0 then
      let cnt2 := cnt1 - (countChar l closeBrace : Int)
      if cnt2 = 0 then j else braceScanGo ls cnt2 (j + 1)
    else braceScanGo ls cnt1 (j + 1)

/-- The method-end scan from line `i` (counter starts at zero). -/
def braceScanEnd (lines : List String) (i : Nat) : Nat :=
  braceScanGo (lines.drop i) 0 i

/-- The multi-line validation snippet inserted by `_add_field_validation`
(one list element holding embedded newlines, as `lines.insert` receives the
whole f-string). -/
def validationSnippet (isString : Bool) (pas title : String) : String :=
  if isString then
    "        if (!StringUtils.hasText(request.get" ++ pas ++ "())) \x7b\n" ++
    "            throw new BusinessException(\"" ++ title ++ " is required\");\n" ++
    "        \x7d"
  else
    "        if (request.get" ++ pas ++ "() == null) \x7b\n" ++
    "            throw new BusinessException(\"" ++ title ++ " is required\");\n" ++
    "        \x7d"

/-- `JavaFileUpdater._add_field_validation`: find the first line mentioning
a validation method, locate the method end by brace scanning, and (when the
field is required) insert the validation snippet one line before it. -/
def addFieldValidation (lines : List String) (f : FieldDesc) : List String :=
  match lines.findIdx? (fun l =>
      containsSubstr l "validateCreateRequest" || containsSubstr l "validateUpdateRequest") with
  | none => lines
  | some i =>
    if f.required?.getD false then
      let j := braceScanEnd lines i
      let nm := f.name?.getD ""
      let code := validationSnippet (f.javaType?.getD "" = "String") (toPascalCase nm)
        (pyTitle (pyReplaceChar '_' ' ' nm))
      pyInsert lines ((j : Int) - 1) code
    else lines

/-- Index walk of `_add_field_mapping`: Python iterates by index over the
live list while inserting into it; the fuel parameter bounds the walk (the
source can loop forever on pathological one-line methods; on inputs where
it terminates the fuel below is sufficient since each trigger line inserts
at most one line). -/
def addFieldMappingGo (pas entityLower : String) (autoGen : Bool) :
    Nat → Nat → List String → List String
  | 0, _, ls => ls
  | fuel + 1, i, ls =>
    if i < ls.length then
      let line := ls.getD i ""
      if containsSubstr line "createEntityFromRequest" ||
         containsSubstr line "updateEntityFromRequest" ||
         containsSubstr line "convertToResponse" then
        let j := braceScanEnd ls i
        let ls2 :=
          if containsSubstr line "createEntityFromRequest" && !autoGen then
            pyInsert ls ((j : Int) - 1)
              ("        " ++ entityLower ++ ".set" ++ pas ++ "(request.get" ++ pas ++ "());")
          else if containsSubstr line "convertToResponse" then
            pyInsert ls ((j : Int) - 1)
              ("        response.set" ++ pas ++ "(" ++ entityLower ++ ".get" ++ pas ++ "());")
          else ls
        addFieldMappingGo pas entityLower autoGen fuel (i + 1) ls2
      else addFieldMappingGo pas entityLower autoGen fuel (i + 1) ls
    else ls

/-- `JavaFileUpdater._add_field_mapping`: insert entity/response setter
mappings before the end of each recognized conversion method. -/
def addFieldMapping (f : FieldDesc) (entityLower : String) (lines : List String) : List String :=
  addFieldMappingGo (toPascalCase (f.name?.getD "")) entityLower
    (f.autoGenerated?.getD false) (2 * lines.length + 4) 0 lines

/-- Filter recursion equivalent to the pop-or-advance while loop of
`_remove_field_references`. -/
def removeFieldRefsGo (getPat setPat : String) : List String → List String
  | [] => []
  | l :: ls =>
    if containsSubstr l getPat || containsSubstr l setPat then
      removeFieldRefsGo getPat setPat ls
    else l :: removeFieldRefsGo getPat setPat ls

/-- `JavaFileUpdater._remove_field_references`: drop every line mentioning
the field's getter or setter. -/
def removeFieldReferences (fieldName : String) (lines : List String) : List String :=
  let pas := toPascalCase fieldName
  removeFieldRefsGo ("get" ++ pas ++ "()") ("set" ++ pas ++ "(") lines

/-- A line belonging to the annotation/doc block preceding a field
declaration (stripped line starting with `@`, `*`, `/**`, or blank). -/
def isFieldBlockPrev (l : String) : Bool :=
  let t := pyStrip l
  strStartsWith t "@" || strStartsWith t "*" || strStartsWith t "/**" || t = ""

/-- Walk back from a field's line to the start of its block. -/
def blockStartFrom (lines : List String) : Nat → Nat
  | 0 => 0
  | k + 1 => if isFieldBlockPrev (lines.getD k "") then blockStartFrom lines k else k + 1

/-- Pop `cnt` lines at index `start` (skipping once the index runs off the
end, as the source guards each pop). -/
def popLines : List String → Nat → Nat → List String
  | ls, _, 0 => ls
  | ls, start, k + 1 =>
    if start < ls.length then popLines (popAt ls start) start k
    else popLines ls start k

/-- `JavaFileUpdater._remove_field_block` (also inlined by the remove
branch of `_apply_model_operations`): delete the field's declaration line
together with its contiguous annotation/doc block. -/
def removeFieldBlock (lines : List String) (fi : JField) : List String :=
  let endLine := fi.lineNumber
  let startLine := blockStartFrom lines endLine
  popLines lines startLine (endLine - startLine + 1)

/-- A line containing one of the validation annotation markers removed by
`_update_field_annotations`. -/
def annoIsValidation (l : String) : Bool :=
  containsSubstr l "@NotNull" || containsSubstr l "@Size" ||
  containsSubstr l "@DecimalMin" || containsSubstr l "@DecimalMax"

/-- Downward sweep of `_update_field_annotations`: from the line above the
field, while lines are annotations, drop the validation ones (decrementing
the remembered field line per removal). -/
def annoSweep : Nat → List String → Nat → List String × Nat
  | 0, ls, fl => (ls, fl)
  | i + 1, ls, fl =>
    let cur := ls.getD i ""
    if strStartsWith (pyStrip cur) "@" then
      if annoIsValidation cur then annoSweep i (popAt ls i) (fl - 1)
      else annoSweep i ls fl
    else (ls, fl)

/-- `JavaFileUpdater._update_field_annotations`: remove the old validation
annotations above the field, then insert the regenerated ones at the
(adjusted) field line. -/
def updateFieldAnnos (ls : List String) (fieldLine : Nat) (required : Bool)
    (maxLen? : Option Nat) : List String :=
  let swept := annoSweep fieldLine ls fieldLine
  let newAnnos :=
    (if required then ["    @NotNull(message = \"Field is required\")"] else []) ++
    (match maxLen? with
     | some m =>
       if m ≠ 0 then ["    @Size(max = " ++ toString m ++ ", message = \"Field too long\")"]
       else []
     | none => [])
  insertLinesAt swept.1 (swept.2 : Int) newAnnos

/-- Python's `\w` on ASCII. -/
def wordChar (c : Char) : Bool :=
  c.isAlphanum || c = '_'

/-- Match `\s+` then the literal `<field>;` with greedy backtracking over
the whitespace run length (candidate length `k+1` down to 1); `consumed`
counts the characters already matched, and a success returns the total
match length. -/
def matchTailTry (target cs : List Char) (consumed : Nat) : Nat → Option Nat
  | 0 => none
  | k + 1 =>
    if target.isPrefixOf (cs.drop (k + 1)) then some (consumed + k + 1 + target.length)
    else matchTailTry target cs consumed k

/-- The `\s+<field>;` tail of the declaration pattern. -/
def matchTail (fieldName : String) (cs : List Char) (consumed : Nat) : Option Nat :=
  matchTailTry (fieldName.data ++ [';']) cs consumed (cs.takeWhile wsChar).length

/-- The lazy optional generic group `(?:<.*?>)?` (entered after `<`): try
each `>` from the nearest outward, with `.` excluding newlines; `len`
counts the group characters consumed so far (the leading `<` included). -/
def tryGenericGo (fieldName : String) : List Char → Nat → Nat → Option Nat
  | [], _, _ => none
  | c :: rest, len, consumed =>
    if c = '\n' then none
    else if c = '>' then
      match matchTail fieldName rest (consumed + len + 1) with
      | some r => some r
      | none => tryGenericGo fieldName rest (len + 1) consumed
    else tryGenericGo fieldName rest (len + 1) consumed

/-- Anchored match of `private\s+\w+(?:<.*?>)?\s+<field>;` at the head of
`cs`, returning the match length. The maximal `\w+` run is the only
possible one (the next pattern character is never a word character). -/
def matchFieldDeclLen (fieldName : String) (cs : List Char) : Option Nat :=
  if "private".data.isPrefixOf cs then
    let rest1 := cs.drop 7
    let ws1 := (rest1.takeWhile wsChar).length
    if ws1 = 0 then none
    else
      let rest2 := rest1.drop ws1
      let wd := (rest2.takeWhile wordChar).length
      if wd = 0 then none
      else
        let rest3 := rest2.drop wd
        let consumed := 7 + ws1 + wd
        match rest3 with
        | '<' :: body => tryGenericGo fieldName body 1 consumed
        | _ => matchTail fieldName rest3 consumed
  else none

/-- `re.sub` scan: at each position replace a match and continue after it,
otherwise advance one character (fuel bounds the scan; every step consumes
at least one character, so the initial fuel is sufficient). -/
def reSubGo (fieldName repl : String) : Nat → List Char → List Char
  | 0, cs => cs
  | _ + 1, [] => []
  | fuel + 1, c :: rest =>
    match matchFieldDeclLen fieldName (c :: rest) with
    | some k => repl.data ++ reSubGo fieldName repl fuel ((c :: rest).drop k)
    | none => c :: reSubGo fieldName repl fuel rest

/-- The type-rewrite of the update branch of `_apply_model_operations`:
`re.sub(rf'private\s+\w+(?:<.*?>)?\s+{field_name};',
f'private {java_type} {field_name};', line)`. -/
def reSubFieldDecl (fieldName javaType : String) (line : String) : String :=
  let repl := "private " ++ javaType ++ " " ++ fieldName ++ ";"
  ⟨reSubGo fieldName repl (line.data.length + 1) line.data⟩

/-- `JavaFileUpdater._sql_to_java_type`. -/
def sqlToJavaType (sqlType : String) : String :=
  let base := pyUpper ((splitOnChar (Char.ofNat 40) sqlType).headD "")
  if base = "BIGSERIAL" then "Long"
  else if base = "BIGINT" then "Long"
  else if base = "INTEGER" then "Integer"
  else if base = "DECIMAL" then "BigDecimal"
  else if base = "VARCHAR" then "String"
  else if base = "TEXT" then "String"
  else if base = "TIMESTAMP" then "LocalDateTime"
  else if base = "DATE" then "LocalDate"
  else if base = "BOOLEAN" then "Boolean"
  else "String"

/-- `JavaFileUpdater._generate_model_field_code`: the doc comment, JPA and
validation annotations, and declaration generated for a new model field
(joined with newlines; a trailing empty line closes the block). -/
def generateModelFieldCode (f : FieldDesc) : String :=
  let nm := f.name?.getD ""
  let title := pyTitle (pyReplaceChar '_' ' ' nm)
  let jt := f.javaType?.getD ""
  let docLines := ["    /**", "     * " ++ f.descr?.getD nm, "     */"]
  let idLines :=
    if f.primaryKey?.getD false then
      ["    @Id"] ++
      (if f.autoGenerated?.getD false then
        ["    @GeneratedValue(strategy = GenerationType.IDENTITY)"] else [])
    else []
  let tsLines :=
    if nm = "created_at" && f.autoGenerated?.getD false then ["    @CreationTimestamp"]
    else if nm = "updated_at" && f.updateOnModify?.getD false then ["    @UpdateTimestamp"]
    else []
  let columnParts :=
    ["name = \"" ++ nm ++ "\""] ++
    (if !(f.nullable?.getD true) then ["nullable = false"] else []) ++
    (match f.maxLength? with
     | some m => if m ≠ 0 then ["length = " ++ toString m] else []
     | none => [])
  let columnLine := ["    @Column(" ++ joinWith ", " columnParts ++ ")"]
  let requiredLines :=
    if f.required?.getD false then
      ["    @NotNull(message = \"" ++ title ++ " is required\")"] else []
  let sizeLines :=
    if jt = "String" then
      match f.maxLength? with
      | some m =>
        if m ≠ 0 then
          ["    @Size(max = " ++ toString m ++ ", message = \"" ++ title ++
           " cannot exceed " ++ toString m ++ " characters\")"]
        else []
      | none => []
    else []
  let minLines :=
    if jt = "BigDecimal" || jt = "Integer" || jt = "Long" then
      match f.minValue? with
      | some mv =>
        ["    @DecimalMin(value = \"" ++ toString mv ++ "\", message = \"" ++ title ++
         " must be at least " ++ toString mv ++ "\")"]
      | none => []
    else []
  let declLines := ["    private " ++ jt ++ " " ++ toCamelCase nm ++ ";", ""]
  joinWith "\n"
    (docLines ++ idLines ++ tsLines ++ columnLine ++ requiredLines ++ sizeLines ++
     minLines ++ declLines)

/-- `JavaFileUpdater._get_example_value`. -/
def getExampleValue (f : FieldDesc) : String :=
  let jt := f.javaType?.getD ""
  if jt = "String" then "Sample " ++ pyReplaceChar '_' ' ' (f.name?.getD "")
  else if jt = "BigDecimal" then "100.50"
  else if jt = "Integer" || jt = "Long" then "1"
  else if jt = "Boolean" then "true"
  else if jt = "LocalDateTime" then "2024-01-15T10:30:00"
  else if jt = "LocalDate" then "2024-01-15"
  else "sample"

/-- `JavaFileUpdater._generate_dto_field_code`. -/
def generateDtoFieldCode (f : FieldDesc) (dtoType : String) : String :=
  let nm := f.name?.getD ""
  let descr := f.descr?.getD nm
  let title := pyTitle (pyReplaceChar '_' ' ' nm)
  let jt := f.javaType?.getD ""
  let requiredStr := if f.required?.getD false && dtoType = "request" then "true" else "false"
  let schemaLines :=
    ["    @Schema(description = \"" ++ descr ++ "\",",
     "            required = " ++ requiredStr ++ ","] ++
    (match f.maxLength? with
     | some m => if m ≠ 0 then ["            maxLength = " ++ toString m ++ ","] else []
     | none => []) ++
    ["            example = \"" ++ getExampleValue f ++ "\")"]
  let jsonLine := ["    @JsonProperty(\"" ++ nm ++ "\")"]
  let valLines :=
    if dtoType = "request" then
      (if f.required?.getD false then
        ["    @NotNull(message = \"" ++ title ++ " is required\")"] ++
        (if jt = "String" then
          ["    @NotBlank(message = \"" ++ title ++ " cannot be blank\")"] else [])
      else []) ++
      (if jt = "String" then
        match f.maxLength? with
        | some m =>
          if m ≠ 0 then
            ["    @Size(max = " ++ toString m ++ ", message = \"" ++ title ++
             " cannot exceed " ++ toString m ++ " characters\")"]
          else []
        | none => []
      else [])
    else []
  joinWith "\n"
    (["    /**", "     * " ++ descr, "     */"] ++ schemaLines ++ jsonLine ++ valLines ++
     ["    private " ++ jt ++ " " ++ toCamelCase nm ++ ";", ""])

/-- The raw getter/setter f-string of `_update_dto_methods` (before the
`strip()` that drops the leading newline and first indentation). -/
def getterSetterRaw (f : FieldDesc) : String :=
  let nm := f.name?.getD ""
  let descrLower := pyLower (f.descr?.getD nm)
  let camel := toCamelCase nm
  let pas := toPascalCase nm
  let jt := f.javaType?.getD ""
  "\n    /**\n     * Get " ++ descrLower ++ ".\n     * \n     * @return " ++ descrLower ++
  "\n     */\n    public " ++ jt ++ " get" ++ pas ++ "() \x7b\n        return " ++ camel ++
  ";\n    \x7d\n\n    /**\n     * Set " ++ descrLower ++ ".\n     * \n     * @param " ++
  camel ++ " " ++ descrLower ++ "\n     */\n    public void set" ++ pas ++ "(" ++ jt ++
  " " ++ camel ++ ") \x7b\n        this." ++ camel ++ " = " ++ camel ++ ";\n    \x7d\n"

/-- The line-list threaded through an applier loop together with the
mutable `last_field_line` (−1 when no field was seen). -/
structure RewriteState where
  lines : List String
  lastFieldLine : Int
deriving Repr, Inhabited

/-- `existing_fields = {f["name"]: f for f in structure["fields"]}`: a later
duplicate wins, so look up in the reversed field list. -/
def existingFieldsOf (st : JStructure) : String → Option JField :=
  fun n => (st.fields.reverse).find? (fun f => f.name = n)

/-- The initial `last_field_line`: the maximal captured field line, or −1. -/
def lastFieldLineOf (st : JStructure) : Int :=
  st.fields.foldl (fun m f => max m (f.lineNumber : Int)) (-1)

/-- Last index satisfying a predicate, or −1 (the repeated-assignment scan
of `_apply_model_operations` for `class_start`). -/
def findLastIdxGo (p : String → Bool) : List String → Nat → Int → Int
  | [], _, acc => acc
  | l :: rest, i, acc => findLastIdxGo p rest (i + 1) (if p l then (i : Int) else acc)

/-- Last index satisfying a predicate, or −1. -/
def findLastIdxSat (p : String → Bool) (ls : List String) : Int :=
  findLastIdxGo p ls 0 (-1)

/-- One iteration of the `_apply_model_operations` loop body (the
`existing_fields` map and `class_start` are captured once, before the
loop). -/
def applyModelStep (ex : String → Option JField) (classStart : Int)
    (s : RewriteState) (op : FieldOperation) : RewriteState :=
  if op.action = "add" then
    let f := op.fieldData.field?.getD default
    let block := splitOnChar '\n' (generateModelFieldCode f)
    let insertLine : Int := if s.lastFieldLine > -1 then s.lastFieldLine + 1 else classStart + 2
    ⟨insertLinesAt s.lines insertLine block, s.lastFieldLine + block.length⟩
  else if op.action = "remove" then
    match ex (op.fieldData.fieldName?.getD "") with
    | some fi => ⟨removeFieldBlock s.lines fi, s.lastFieldLine⟩
    | none => s
  else if op.action = "update" then
    match ex (op.fieldData.fieldName?.getD "") with
    | some fi =>
      let fn := op.fieldData.fieldName?.getD ""
      let ch := op.fieldData.changes?.getD default
      let ls1 :=
        match ch.newType? with
        | some t =>
          s.lines.set fi.lineNumber
            (reSubFieldDecl fn (sqlToJavaType t) (s.lines.getD fi.lineNumber ""))
        | none => s.lines
      let ls2 :=
        if ch.hasValidation then
          updateFieldAnnos ls1 fi.lineNumber (ch.required?.getD false) ch.maxLength?
        else ls1
      ⟨ls2, s.lastFieldLine⟩
    | none => s
  else s

/-- Apply the model-step loop body over the operations in the given order. -/
def applyModelInOrder (ex : String → Option JField) (classStart : Int)
    (s0 : RewriteState) (order : List FieldOperation) : RewriteState :=
  order.foldl (applyModelStep ex classStart) s0

/-- `JavaFileUpdater._apply_model_operations`: the loop runs over
`reversed(operations)`. -/
def applyModelOperations (si : ServiceInfo) (st : JStructure)
    (ops : List FieldOperation) : String :=
  let ex := existingFieldsOf st
  let classStart := findLastIdxSat
    (fun l => containsSubstr l "public class" && containsSubstr l (si.entity?.getD "")) st.lines
  let fin := applyModelInOrder ex classStart ⟨st.lines, lastFieldLineOf st⟩ ops.reverse
  joinWith "\n" fin.lines

/-- One iteration of the `_apply_dto_operations` loop body. The update
branch calls the nonexistent method `_update_dto_field` whenever the field
exists, which raises `AttributeError` (modelled as `Except.error`). -/
def applyDtoStep (dtoType : String) (ex : String → Option JField)
    (s : RewriteState) (op : FieldOperation) : Except String RewriteState :=
  if op.action = "add" then
    let f := op.fieldData.field?.getD default
    if dtoType = "request" && f.autoGenerated?.getD false then .ok s
    else
      let block := splitOnChar '\n' (generateDtoFieldCode f dtoType)
      let insertLine : Int :=
        if s.lastFieldLine > -1 then s.lastFieldLine + 1 else (s.lines.length : Int) - 5
      .ok ⟨insertLinesAt s.lines insertLine block, s.lastFieldLine + block.length⟩
  else if op.action = "remove" then
    match ex (op.fieldData.fieldName?.getD "") with
    | some fi => .ok ⟨removeFieldBlock s.lines fi, s.lastFieldLine⟩
    | none => .ok s
  else if op.action = "update" then
    match ex (op.fieldData.fieldName?.getD "") with
    | some _ =>
      .error "AttributeError: \x27JavaFileUpdater\x27 object has no attribute \x27_update_dto_field\x27"
    | none => .ok s
  else .ok s

/-- Apply the DTO-step loop body over the operations in the given order. -/
def applyDtoInOrder (dtoType : String) (ex : String → Option JField)
    (s0 : RewriteState) (order : List FieldOperation) : Except String RewriteState :=
  order.foldlM (applyDtoStep dtoType ex) s0

/-- One iteration of the accessor-regeneration loop of
`_update_dto_methods` (runs forward over the operation list, inserting the
stripped getter/setter block before the remembered class end). -/
def updateDtoMethodsStep (dtoType : String) (st : List String × Int)
    (op : FieldOperation) : List String × Int :=
  if op.action = "add" then
    let f := op.fieldData.field?.getD default
    if dtoType = "request" && f.autoGenerated?.getD false then st
    else
      let gs := splitOnChar '\n' (pyStrip (getterSetterRaw f))
      (insertLinesAt st.1 st.2 gs, st.2 + (gs.length : Int))
  else st

/-- `JavaFileUpdater._update_dto_methods` (class end starts at
`len(lines) - 2`). -/
def updateDtoMethods (ls : List String) (ops : List FieldOperation)
    (dtoType : String) : List String :=
  (ops.foldl (updateDtoMethodsStep dtoType) (ls, (ls.length : Int) - 2)).1

/-- `JavaFileUpdater._apply_dto_operations`: the field-block loop runs over
`reversed(operations)`; the accessor phase then runs forward over
`operations`. -/
def applyDtoOperations (dtoType : String) (st : JStructure)
    (ops : List FieldOperation) : Except String String := do
  let fin ← applyDtoInOrder dtoType (existingFieldsOf st) ⟨st.lines, lastFieldLineOf st⟩
    ops.reverse
  pure (joinWith "\n" (updateDtoMethods fin.lines ops dtoType))

/-- One iteration of the `_apply_service_operations` loop body (the update
branch calls `_update_field_validation`, whose body has no effect). -/
def applyServiceStep (si : ServiceInfo) (lines : List String)
    (op : FieldOperation) : List String :=
  if op.action = "add" then
    let f := op.fieldData.field?.getD default
    let lines1 := if f.required?.getD false then addFieldValidation lines f else lines
    addFieldMapping f (pyLower (si.entity?.getD "Entity")) lines1
  else if op.action = "remove" then
    removeFieldReferences (op.fieldData.fieldName?.getD "") lines
  else lines

/-- Apply the service-step loop body over the operations in the given
order. -/
def applyServiceInOrder (si : ServiceInfo) (lines : List String)
    (order : List FieldOperation) : List String :=
  order.foldl (applyServiceStep si) lines

/-- `JavaFileUpdater._apply_service_operations`: the loop runs over
`operations` in the given (forward) order. -/
def applyServiceOperations (si : ServiceInfo) (st : JStructure)
    (ops : List FieldOperation) : String :=
  joinWith "\n" (applyServiceInOrder si st.lines ops)

/-- Modelled from the spec: service-file rewriting with the operations
applied in reverse order of the operation list — what the claim asserts
step 7b does for every artifact. -/
def applyServiceOperationsRevSpec (si : ServiceInfo) (st : JStructure)
    (ops : List FieldOperation) : String :=
  joinWith "\n" (applyServiceInOrder si st.lines ops.reverse)

/-! ## Helper lemmas -/

/-- The data-loss message never coincides with the primary-key message for
the same field (their lengths differ by nine). -/
lemma dataLossMsg_ne_pkMsg (n : String) :
    ("Type change for field " ++ n ++ " may cause data loss") ≠
      "Cannot modify primary key field: " ++ n := by
  intro h
  have hl := congrArg String.length h
  rw [String.length_append, String.length_append, String.length_append] at hl
  have h1 : ("Type change for field " : String).length = 22 := rfl
  have h2 : (" may cause data loss" : String).length = 20 := rfl
  have h3 : ("Cannot modify primary key field: " : String).length = 33 := rfl
  omega

/-- Evaluation of the safety validator on a remove operation with the field
name present. -/
lemma validateOperationSafety_remove_eq (op : FieldOperation) (n tableName : String)
    (migFiles : List MigrationFile) (hact : op.action = "remove")
    (hfn : op.fieldData.fieldName? = some n) :
    validateOperationSafety op tableName migFiles =
      (if isPrimaryKeyName n then ["Cannot remove primary key field: " ++ n] else []) ++
      (if hasForeignKeyRefs n tableName migFiles then
        ["Field " ++ n ++ " is referenced by foreign keys in other tables"] else []) := by
  unfold validateOperationSafety
  rw [hact, if_pos rfl]
  simp [hfn]

/-- Evaluation of the safety validator on an update operation whose changes
carry a type. -/
lemma validateOperationSafety_update_eq (op : FieldOperation) (n t tableName : String)
    (migFiles : List MigrationFile) (ch : Changes) (hact : op.action = "update")
    (hfn : op.fieldData.fieldName? = some n) (hch : op.fieldData.changes? = some ch)
    (ht : ch.newType? = some t) :
    validateOperationSafety op tableName migFiles =
      (if isPrimaryKeyName n then ["Cannot modify primary key field: " ++ n] else []) ++
      (if ¬ isTypeChangeSafe t then
        ["Type change for field " ++ n ++ " may cause data loss"] else []) := by
  unfold validateOperationSafety
  rw [hact, if_neg (by decide), if_pos rfl]
  simp [hfn, hch, ht]

/-! ## C10 -/

/-- **C10.** `validate_operation_safety` returns an empty error list for
every add operation, regardless of the field descriptor: neither branch of
the function inspects add operations. -/
theorem c10_add_operations_always_safe (op : FieldOperation) (tableName : String)
    (migFiles : List MigrationFile) (h : op.action = "add") :
    validateOperationSafety op tableName migFiles = [] := by
  simp [validateOperationSafety, h]

/-- Witness for C10: an add operation of a non-nullable field named `id`
with no default still validates as safe. -/
theorem c10_witness :
    validateOperationSafety
      ⟨"add", ⟨some { name? := some "id", sqlType? := some "BIGINT",
                      javaType? := some "Long", nullable? := some false,
                      defaultValue? := none, primaryKey? := some true,
                      autoGenerated? := none, updateOnModify? := none,
                      descr? := none }, none, none⟩⟩ "users" [] = [] :=
  c10_add_operations_always_safe _ "users" [] rfl

/-! ## C3 -/

/-- **C3.** Safety validation never returns an empty error list for: a
remove of a field named `id` (case-insensitively), a remove of a field
appearing in a `REFERENCES <table>(<field>)` pattern in an existing `.sql`
migration file for the service's table, or an update of a field named
`uuid` (case-insensitively). -/
theorem c3_safety_blocks_protected_ops :
    (∀ (d : OpData) (n tableName : String) (migFiles : List MigrationFile),
      d.fieldName? = some n → pyLower n = "id" →
      validateOperationSafety ⟨"remove", d⟩ tableName migFiles ≠ []) ∧
    (∀ (d : OpData) (n tableName : String) (migFiles : List MigrationFile)
       (mf : MigrationFile),
      d.fieldName? = some n → mf ∈ migFiles → strEndsWith mf.fname ".sql" = true →
      containsSubstr mf.content ("REFERENCES " ++ tableName ++ "(" ++ n ++ ")") = true →
      validateOperationSafety ⟨"remove", d⟩ tableName migFiles ≠ []) ∧
    (∀ (d : OpData) (n tableName : String) (migFiles : List MigrationFile),
      d.fieldName? = some n → pyLower n = "uuid" →
      validateOperationSafety ⟨"update", d⟩ tableName migFiles ≠ []) := by
  refine ⟨?_, ?_, ?_⟩
  · intro d n tableName migFiles hfn hlow
    rw [validateOperationSafety_remove_eq ⟨"remove", d⟩ n tableName migFiles rfl hfn]
    have hpk : isPrimaryKeyName n = true := by
      simp [isPrimaryKeyName, hlow]
    rw [if_pos hpk]
    simp
  · intro d n tableName migFiles mf hfn hmem hsql hpat
    have hfk : hasForeignKeyRefs n tableName migFiles = true := by
      unfold hasForeignKeyRefs
      rw [List.any_eq_true]
      exact ⟨mf, List.mem_filter.mpr ⟨hmem, hsql⟩, hpat⟩
    rw [validateOperationSafety_remove_eq ⟨"remove", d⟩ n tableName migFiles rfl hfn, hfk]
    exact List.append_ne_nil_of_right_ne_nil _ (by simp)
  · intro d n tableName migFiles hfn hlow
    have hpk : isPrimaryKeyName n = true := by
      simp [isPrimaryKeyName, hlow]
    unfold validateOperationSafety
    rw [show (⟨"update", d⟩ : FieldOperation).action = "update" from rfl,
        if_neg (by decide), if_pos rfl]
    simp [hfn, hpk]

/-- Witness for C3: concrete instances of all three protections. -/
theorem c3_witness :
    validateOperationSafety ⟨"remove", ⟨none, some "ID", none⟩⟩ "users" [] ≠ [] ∧
    validateOperationSafety ⟨"remove", ⟨none, some "code", none⟩⟩ "users"
      [⟨"V2__fk.sql", "ALTER TABLE x ADD CONSTRAINT c FOREIGN KEY (u) REFERENCES users(code);"⟩]
      ≠ [] ∧
    validateOperationSafety ⟨"update", ⟨none, some "uuid", none⟩⟩ "users" [] ≠ [] :=
  ⟨c3_safety_blocks_protected_ops.1 ⟨none, some "ID", none⟩ "ID" "users" [] rfl (by decide),
   c3_safety_blocks_protected_ops.2.1 ⟨none, some "code", none⟩ "code" "users"
     [⟨"V2__fk.sql", "ALTER TABLE x ADD CONSTRAINT c FOREIGN KEY (u) REFERENCES users(code);"⟩]
     ⟨"V2__fk.sql", "ALTER TABLE x ADD CONSTRAINT c FOREIGN KEY (u) REFERENCES users(code);"⟩
     rfl (List.mem_singleton.mpr rfl) (by decide) (by decide),
   c3_safety_blocks_protected_ops.2.2 ⟨none, some "uuid", none⟩ "uuid" "users" [] rfl (by decide)⟩

/-! ## C8 -/

/-- Modelled from the spec: a "character-varying (VARCHAR) type",
operationalized exactly as the code's heuristic does — the uppercased type
string contains `VARCHAR`. -/
def isCharacterVaryingType (t : String) : Bool :=
  containsSubstr (pyUpper t) "VARCHAR"

/-- **C8.** For every update operation whose changes include a storage
type, safety validation appends the possible-data-loss error iff the new
type is not a character-varying (VARCHAR) type. -/
theorem c8_type_change_flag_iff_not_varchar (d : OpData) (n t tableName : String)
    (migFiles : List MigrationFile) (ch : Changes)
    (hfn : d.fieldName? = some n) (hch : d.changes? = some ch)
    (ht : ch.newType? = some t) :
    (("Type change for field " ++ n ++ " may cause data loss") ∈
        validateOperationSafety ⟨"update", d⟩ tableName migFiles)
      ↔ isCharacterVaryingType t = false := by
  have hsafe : isTypeChangeSafe t = isCharacterVaryingType t := rfl
  rw [validateOperationSafety_update_eq ⟨"update", d⟩ n t tableName migFiles ch rfl hfn hch ht,
      hsafe]
  cases hv : isCharacterVaryingType t
  · rw [if_pos (show ¬ (false = true) by decide)]
    simp [List.mem_append]
  · rw [if_neg (show ¬ ¬ (true = true) from fun h => h rfl), List.append_nil]
    simp only [Bool.true_eq_false, iff_false]
    intro hmem
    by_cases hpk : isPrimaryKeyName n = true
    · rw [if_pos hpk] at hmem
      exact absurd (List.mem_singleton.mp hmem) (dataLossMsg_ne_pkMsg n)
    · rw [if_neg hpk] at hmem
      exact absurd hmem (List.not_mem_nil _)

/-- Witness for C8: changing `amount` to `TEXT` is flagged, and the flag
is equivalent to `TEXT` not being a VARCHAR type. -/
theorem c8_witness :
    (("Type change for field " ++ "amount" ++ " may cause data loss") ∈
        validateOperationSafety
          ⟨"update", ⟨none, some "amount", some ⟨some "TEXT", false, none, none⟩⟩⟩
          "orders" [])
      ↔ isCharacterVaryingType "TEXT" = false :=
  c8_type_change_flag_iff_not_varchar _ "amount" "TEXT" "orders" []
    ⟨some "TEXT", false, none, none⟩ rfl rfl rfl

/-! ## C5 -/

/-- Modelled from the spec: the variant-specific required attributes of
each action tag. -/
def requiredAttrsOf (a : String) : List String :=
  if a = "add" then ["name", "type", "javaType"]
  else if a = "update" then ["field_name", "changes"]
  else if a = "remove" then ["field_name"]
  else []

/-- Modelled from the spec: whether one required attribute is present in
the payload (for an add operation the attributes live inside the nested
field descriptor). -/
def attrIsPresent (a : String) (d : OpData) (attr : String) : Bool :=
  if a = "add" then
    let fd := d.field?.getD default
    if attr = "name" then fd.name?.isSome
    else if attr = "type" then fd.sqlType?.isSome
    else if attr = "javaType" then fd.javaType?.isSome
    else false
  else if attr = "field_name" then d.fieldName?.isSome
  else if attr = "changes" then d.changes?.isSome
  else false

/-- Modelled from the spec: every variant-specific required attribute is
present. -/
def requiredAttrsPresent (a : String) (d : OpData) : Bool :=
  (requiredAttrsOf a).all (attrIsPresent a d)

/-- Evaluation of the constructor when the lowercased action is `add`. -/
lemma mkFieldOperation_add_eq (action : String) (d : OpData)
    (h1 : pyLower action = "add") :
    mkFieldOperation action d =
      if ((d.field?.getD default).name?.isSome &&
          (d.field?.getD default).sqlType?.isSome &&
          (d.field?.getD default).javaType?.isSome) then
        .ok ⟨"add", d⟩
      else .error "Add operation requires: [\x27name\x27, \x27type\x27, \x27javaType\x27]" := by
  simp [mkFieldOperation, h1, validActions]

/-- Evaluation of the constructor when the lowercased action is `update`. -/
lemma mkFieldOperation_update_eq (action : String) (d : OpData)
    (h2 : pyLower action = "update") :
    mkFieldOperation action d =
      if d.fieldName?.isNone then .error "Update operation requires \x27field_name\x27"
      else if d.changes?.isNone then .error "Update operation requires \x27changes\x27"
      else .ok ⟨"update", d⟩ := by
  simp [mkFieldOperation, h2, validActions]

/-- Evaluation of the constructor when the lowercased action is `remove`. -/
lemma mkFieldOperation_remove_eq (action : String) (d : OpData)
    (h3 : pyLower action = "remove") :
    mkFieldOperation action d =
      if d.fieldName?.isNone then .error "Remove operation requires \x27field_name\x27"
      else .ok ⟨"remove", d⟩ := by
  simp [mkFieldOperation, h3, validActions]

/-- Evaluation of the constructor on an invalid action tag. -/
lemma mkFieldOperation_invalid_eq (action : String) (d : OpData)
    (h : validActions.contains (pyLower action) = false) :
    mkFieldOperation action d =
      .error ("Invalid action: " ++ pyLower action ++
        ". Must be one of [\x27add\x27, \x27update\x27, \x27remove\x27]") := by
  simp only [mkFieldOperation]
  rw [if_pos (show ¬ (validActions.contains (pyLower action) = true) by rw [h]; decide)]

/-- **C5.** `FieldOperation` construction succeeds iff the (lowercased)
action is one of add/update/remove and the variant-specific required
attributes are present (add: `name`, `type`, `javaType` inside the field
descriptor; update: `field_name` and `changes`; remove: `field_name`);
otherwise the raised validation error names a missing attribute (for an
invalid tag there is no required attribute, matching the spec\x27s separate
"invalid variant tags are rejected"). -/
theorem c5_field_operation_validation (action : String) (d : OpData) :
    ((mkFieldOperation action d).isOk = true ↔
      (pyLower action ∈ validActions ∧ requiredAttrsPresent (pyLower action) d = true)) ∧
    (∀ msg, mkFieldOperation action d = .error msg → pyLower action ∈ validActions →
      ∃ attr ∈ requiredAttrsOf (pyLower action),
        attrIsPresent (pyLower action) d attr = false ∧ containsSubstr msg attr = true) := by
  by_cases h1 : pyLower action = "add"
  · rw [mkFieldOperation_add_eq action d h1, h1]
    constructor
    · cases hn : (d.field?.getD default).name?.isSome <;>
        cases ht : (d.field?.getD default).sqlType?.isSome <;>
          cases hj : (d.field?.getD default).javaType?.isSome <;>
            simp [Except.isOk, Except.toBool, requiredAttrsPresent, requiredAttrsOf,
              attrIsPresent, validActions, hn, ht, hj]
    · intro msg hmsg _
      cases hn : (d.field?.getD default).name?.isSome with
      | false =>
        rw [if_neg (by simp [hn])] at hmsg
        injection hmsg with heq
        subst heq
        refine ⟨"name", by simp [requiredAttrsOf], ?_, by decide⟩
        simp [attrIsPresent, hn]
      | true =>
        cases ht : (d.field?.getD default).sqlType?.isSome with
        | false =>
          rw [if_neg (by simp [ht])] at hmsg
          injection hmsg with heq
          subst heq
          refine ⟨"type", by simp [requiredAttrsOf], ?_, by decide⟩
          simp [attrIsPresent, ht]
        | true =>
          cases hj : (d.field?.getD default).javaType?.isSome with
          | false =>
            rw [if_neg (by simp [hj])] at hmsg
            injection hmsg with heq
            subst heq
            refine ⟨"javaType", by simp [requiredAttrsOf], ?_, by decide⟩
            simp [attrIsPresent, hj]
          | true =>
            rw [if_pos (by rw [hn, ht, hj]; rfl)] at hmsg
            exact absurd hmsg (by simp)
  · by_cases h2 : pyLower action = "update"
    · rw [mkFieldOperation_update_eq action d h2, h2]
      constructor
      · cases hfnv : d.fieldName? <;> cases hchv : d.changes? <;>
          simp [Except.isOk, Except.toBool, requiredAttrsPresent, requiredAttrsOf,
            attrIsPresent, validActions, hfnv, hchv]
      · intro msg hmsg _
        cases hfnv : d.fieldName? with
        | none =>
          rw [if_pos (by simp [hfnv])] at hmsg
          injection hmsg with heq
          subst heq
          refine ⟨"field_name", by simp [requiredAttrsOf], ?_, by decide⟩
          simp [attrIsPresent, hfnv]
        | some v =>
          rw [if_neg (by simp [hfnv])] at hmsg
          cases hchv : d.changes? with
          | none =>
            rw [if_pos (by simp [hchv])] at hmsg
            injection hmsg with heq
            subst heq
            refine ⟨"changes", by simp [requiredAttrsOf], ?_, by decide⟩
            simp [attrIsPresent, hchv]
          | some c =>
            rw [if_neg (by simp [hchv])] at hmsg
            exact absurd hmsg (by simp)
    · by_cases h3 : pyLower action = "remove"
      · rw [mkFieldOperation_remove_eq action d h3, h3]
        constructor
        · cases hfnv : d.fieldName? <;>
            simp [Except.isOk, Except.toBool, requiredAttrsPresent, requiredAttrsOf,
              attrIsPresent, validActions, hfnv]
        · intro msg hmsg _
          cases hfnv : d.fieldName? with
          | none =>
            rw [if_pos (by simp [hfnv])] at hmsg
            injection hmsg with heq
            subst heq
            refine ⟨"field_name", by simp [requiredAttrsOf], ?_, by decide⟩
            simp [attrIsPresent, hfnv]
          | some v =>
            rw [if_neg (by simp [hfnv])] at hmsg
            exact absurd hmsg (by simp)
      · have hco : validActions.contains (pyLower action) = false := by
          simp [validActions, h1, h2, h3]
        rw [mkFieldOperation_invalid_eq action d hco]
        constructor
        · simp [Except.isOk, Except.toBool, validActions, h1, h2, h3]
        · intro msg _ hmem
          exact absurd hmem (by simp [validActions, h1, h2, h3])

/-- Witness for C5: a well-formed update payload constructs, and a payload
missing `changes` fails with an error naming a missing attribute. -/
theorem c5_witness :
    (mkFieldOperation "update" ⟨none, some "status", some ⟨some "TEXT", false, none, none⟩⟩).isOk
        = true ∧
    ∃ attr ∈ requiredAttrsOf (pyLower "Update"),
      attrIsPresent (pyLower "Update") ⟨none, some "status", none⟩ attr = false ∧
      containsSubstr "Update operation requires \x27changes\x27" attr = true :=
  ⟨(c5_field_operation_validation "update"
      ⟨none, some "status", some ⟨some "TEXT", false, none, none⟩⟩).1.mpr
      (by constructor
          · decide
          · decide),
   (c5_field_operation_validation "Update" ⟨none, some "status", none⟩).2
      "Update operation requires \x27changes\x27" rfl (by decide)⟩

/-! ## C6 -/

/-- The initial value is a lower bound of a `max` fold. -/
lemma le_foldl_max (l : List Nat) : ∀ a : Nat, a ≤ l.foldl max a := by
  induction l with
  | nil => intro a; exact le_refl a
  | cons v rest ih =>
    intro a
    exact le_trans (le_max_left a v) (ih (max a v))

/-- Every element is bounded by a `max` fold. -/
lemma mem_le_foldl_max (l : List Nat) : ∀ (a x : Nat), x ∈ l → x ≤ l.foldl max a := by
  induction l with
  | nil => intro a x hx; exact absurd hx (List.not_mem_nil x)
  | cons v rest ih =>
    intro a x hx
    rcases List.mem_cons.mp hx with h | h
    · subst h
      exact le_trans (le_max_right a x) (le_foldl_max rest (max a x))
    · exact ih (max a v) x h

/-- A `max` fold returns either the initial value or a list element. -/
lemma foldl_max_mem_or_init (l : List Nat) : ∀ a : Nat,
    l.foldl max a = a ∨ l.foldl max a ∈ l := by
  induction l with
  | nil => intro a; exact Or.inl rfl
  | cons v rest ih =>
    intro a
    rcases ih (max a v) with h | h
    · rcases max_choice a v with hm | hm
      · exact Or.inl (by rw [List.foldl_cons, h, hm])
      · refine Or.inr (List.mem_cons.mpr (Or.inl ?_))
        rw [List.foldl_cons, h, hm]
    · exact Or.inr (List.mem_cons.mpr (Or.inr h))

/-- A `max` fold over a nonempty list starting at zero is an element. -/
lemma foldl_max_zero_mem (l : List Nat) (h : l ≠ []) : l.foldl max 0 ∈ l := by
  rcases foldl_max_mem_or_init l 0 with h0 | hm
  · cases l with
    | nil => exact absurd rfl h
    | cons v rest =>
      have hv : v ≤ (v :: rest).foldl max 0 :=
        mem_le_foldl_max (v :: rest) 0 v (List.mem_cons_self v rest)
      rw [h0] at hv
      have : v = 0 := Nat.le_zero.mp hv
      rw [h0, ← this]
      exact List.mem_cons_self v rest
  · exact hm

/-- **C6.** The generated migration version is one greater than the maximum
`n` among existing files matching the `V<n>__...sql` pattern (or 1 when
none match), the generated file is named
`V<n>__Update_<service>_<table>_fields.sql`, and with existing migrations
`V1__...sql` and `V3__...sql` the next one is `V4__...sql` (max+1, not
count+1). -/
theorem c6_migration_version_max_plus_one :
    (∀ names : List String, migrationVersionNumbers names ≠ [] →
      (nextMigrationVersion names - 1) ∈ migrationVersionNumbers names ∧
      ∀ v ∈ migrationVersionNumbers names, v ≤ nextMigrationVersion names - 1) ∧
    (∀ names : List String, migrationVersionNumbers names = [] →
      nextMigrationVersion names = 1) ∧
    nextMigrationVersion ["V1__init_users.sql", "V3__add_index.sql"] = 4 ∧
    migrationFilename "user" "users"
        (nextMigrationVersion ["V1__init_users.sql", "V3__add_index.sql"]) =
      "V4__Update_user_users_fields.sql" := by
  refine ⟨?_, ?_, by decide, by decide⟩
  · intro names hne
    have hver : nextMigrationVersion names =
        (migrationVersionNumbers names).foldl max 0 + 1 := by
      unfold nextMigrationVersion
      cases hv : migrationVersionNumbers names with
      | nil => exact absurd hv hne
      | cons v rest => simp
    rw [hver, Nat.add_sub_cancel]
    exact ⟨foldl_max_zero_mem _ hne, fun v hv => mem_le_foldl_max _ 0 v hv⟩
  · intro names hnil
    unfold nextMigrationVersion
    rw [hnil]

/-- Witness for C6: the two-migration scenario instantiates the general
max-plus-one bound. -/
theorem c6_witness :
    (nextMigrationVersion ["V1__init_users.sql", "V3__add_index.sql"] - 1) ∈
      migrationVersionNumbers ["V1__init_users.sql", "V3__add_index.sql"] ∧
    nextMigrationVersion ["Vx__broken.sql"] = 1 :=
  ⟨(c6_migration_version_max_plus_one.1 ["V1__init_users.sql", "V3__add_index.sql"]
      (by decide)).1,
   c6_migration_version_max_plus_one.2.1 ["Vx__broken.sql"] (by decide)⟩

/-! ## C7 -/

/-- **C7.** Per operation, the impact analysis emits: for an add, exactly
one `ADD_COLUMN` record for its field plus exactly one risk string iff the
field is non-nullable without a default; for an update whose changes
include a type, one `MODIFY_COLUMN` record and unconditionally one
possible-data-loss risk; for a remove, one `DROP_COLUMN` record whose SQL
is commented out (it decomposes as `"--" ++ rest`), plus one
breaking-change string; and the report lists are the in-order
concatenations of these per-operation contributions. -/
theorem c7_impact_analysis_records (si : ServiceInfo) :
    (∀ d f, d.field? = some f →
      analyzeSingleOperation si ⟨"add", d⟩ =
        ([⟨"ADD_COLUMN", f.name?.getD "",
           "ALTER TABLE " ++ si.table ++ " ADD COLUMN " ++ f.name?.getD "" ++ " " ++
             f.sqlType?.getD ""⟩],
         if ¬ f.nullable?.getD true && f.defaultValue?.isNone then
           ["Adding non-nullable field \x27" ++ f.name?.getD "" ++
            "\x27 without default value may fail if table has data"]
         else [],
         [])) ∧
    (∀ d n ch t, d.fieldName? = some n → d.changes? = some ch → ch.newType? = some t →
      analyzeSingleOperation si ⟨"update", d⟩ =
        ([⟨"MODIFY_COLUMN", n,
           "ALTER TABLE " ++ si.table ++ " ALTER COLUMN " ++ n ++ " TYPE " ++ t⟩],
         ["Changing type of field \x27" ++ n ++ "\x27 may cause data loss if incompatible"],
         [])) ∧
    (∀ d n, d.fieldName? = some n →
      analyzeSingleOperation si ⟨"remove", d⟩ =
        ([⟨"DROP_COLUMN", n,
           "-- ALTER TABLE " ++ si.table ++ " DROP COLUMN " ++ n ++
             "; -- REQUIRES MANUAL CONFIRMATION"⟩],
         [],
         ["Removing field \x27" ++ n ++ "\x27 will break any code that references it"]) ∧
      ∃ rest, ((analyzeSingleOperation si ⟨"remove", d⟩).1.headD default).sql =
        "--" ++ rest) ∧
    (∀ ops : List FieldOperation,
      (analyzeFieldOperations si ops).migrationChanges =
        ops.flatMap (fun op => (analyzeSingleOperation si op).1) ∧
      (analyzeFieldOperations si ops).potentialRisks =
        ops.flatMap (fun op => (analyzeSingleOperation si op).2.1) ∧
      (analyzeFieldOperations si ops).breakingChanges =
        ops.flatMap (fun op => (analyzeSingleOperation si op).2.2)) := by
  refine ⟨?_, ?_, ?_, ?_⟩
  · intro d f hf
    simp [analyzeSingleOperation, hf]
  · intro d n ch t hn hch ht
    unfold analyzeSingleOperation
    rw [show (⟨"update", d⟩ : FieldOperation).action = "update" from rfl,
        if_neg (show ¬ (("update" : String) = "add") by decide), if_pos rfl]
    simp [hn, hch, ht]
  · intro d n hn
    constructor
    · unfold analyzeSingleOperation
      rw [show (⟨"remove", d⟩ : FieldOperation).action = "remove" from rfl,
          if_neg (show ¬ (("remove" : String) = "add") by decide),
          if_neg (show ¬ (("remove" : String) = "update") by decide), if_pos rfl]
      simp [hn]
    · refine ⟨" ALTER TABLE " ++ (si.table ++ (" DROP COLUMN " ++ (n ++
        "; -- REQUIRES MANUAL CONFIRMATION"))), ?_⟩
      unfold analyzeSingleOperation
      rw [show (⟨"remove", d⟩ : FieldOperation).action = "remove" from rfl,
          if_neg (show ¬ (("remove" : String) = "add") by decide),
          if_neg (show ¬ (("remove" : String) = "update") by decide), if_pos rfl]
      simp only [hn, Option.getD_some, List.headD_cons]
      rw [show ("-- ALTER TABLE " : String) = "--" ++ " ALTER TABLE " from rfl,
          String.append_assoc, String.append_assoc, String.append_assoc,
          String.append_assoc]
  · intro ops
    exact ⟨rfl, rfl, rfl⟩

/-- Witness for C7: the spec's `discount_rate` scenario — one `ADD_COLUMN`
record for the field and exactly one risk string about the missing
default. -/
theorem c7_witness :
    analyzeSingleOperation ⟨"product", "products", none, none⟩
      ⟨"add", ⟨some { name? := some "discount_rate", sqlType? := some "DECIMAL(5,2)",
                      javaType? := some "BigDecimal", nullable? := some false,
                      defaultValue? := none, primaryKey? := none, autoGenerated? := none,
                      updateOnModify? := none, descr? := none }, none, none⟩⟩ =
      ([⟨"ADD_COLUMN", "discount_rate",
         "ALTER TABLE " ++ "products" ++ " ADD COLUMN " ++ "discount_rate" ++ " " ++
           "DECIMAL(5,2)"⟩],
       ["Adding non-nullable field \x27" ++ "discount_rate" ++
        "\x27 without default value may fail if table has data"],
       []) := by
  rw [c7_impact_analysis_records ⟨"product", "products", none, none⟩ |>.1 _ _ rfl]
  decide

/-! ## C1 -/

/-- **C1.** For every operations request that passed structural validation,
safety validation and confirmation, if applying the operations raises after
the snapshot was created, `process_field_operations` invokes
`restore_backup` on exactly that snapshot's backup id and returns `False`,
regardless of whether the restore itself succeeds. -/
theorem c1_apply_failure_triggers_restore (env : ProcEnv) (req : OpsRequest)
    (ops : List FieldOperation) (bid : String)
    (hreq : env.request? = some req)
    (hval : validateOperationsFile req = .ok ())
    (hparse : parseFieldOperations (req.fieldOperations?.getD []) = .ok ops)
    (hsafe : safetyErrors env req ops = [])
    (hdry : req.dryRun = false)
    (hconf : req.autoConfirm = true ∨ env.userConfirms = true)
    (hbk : env.backupOutcome? = some bid)
    (happly : env.applyRaises = true) :
    processFieldOperations env =
      (false, [.snapshotCreated bid, .filesMutated,
               .restoreInvoked bid env.restoreSucceeds]) := by
  rcases hconf with hc | hc
  · simp [processFieldOperations, hreq, hval, hparse, hsafe, hdry, hbk, happly, hc]
  · simp [processFieldOperations, hreq, hval, hparse, hsafe, hdry, hbk, happly, hc]

/-- Witness for C1: a concrete passing request whose apply step raises and
whose restore fails — the run still restores that backup id and reports
failure. -/
theorem c1_witness :
    processFieldOperations
      { request? := some { operationType? := some "modify_service",
                           targetService? := some ⟨some "user", some "users", none, none⟩,
                           fieldOperations? := some [⟨some "remove", ⟨none, some "legacy_flag", none⟩⟩],
                           dryRun := false, autoConfirm := true },
        migrationFiles := [], userConfirms := false,
        backupOutcome? := some "field_modification_user_20240101_000000",
        applyRaises := true, restoreSucceeds := false } =
      (false, [.snapshotCreated "field_modification_user_20240101_000000", .filesMutated,
               .restoreInvoked "field_modification_user_20240101_000000" false]) :=
  c1_apply_failure_triggers_restore _ _
    [⟨"remove", ⟨none, some "legacy_flag", none⟩⟩]
    "field_modification_user_20240101_000000"
    rfl rfl rfl rfl rfl (Or.inl rfl) rfl rfl

/-! ## C2 -/

/-- **C2.** No snapshot is created and no dependent file is mutated unless
structural validation succeeded, operation construction succeeded, safety
validation returned no errors, the request is not dry-run, and the run was
confirmed (auto-confirm or operator yes); in particular a safety error, a
dry run, or a user abort terminates the run with an empty side-effect
trace. -/
theorem c2_no_mutation_before_approval :
    (∀ env : ProcEnv, (processFieldOperations env).2 ≠ [] →
      ∃ req ops, env.request? = some req ∧
        validateOperationsFile req = .ok () ∧
        parseFieldOperations (req.fieldOperations?.getD []) = .ok ops ∧
        safetyErrors env req ops = [] ∧
        req.dryRun = false ∧
        (req.autoConfirm = true ∨ env.userConfirms = true)) ∧
    (∀ (env : ProcEnv) (req : OpsRequest) (ops : List FieldOperation),
      env.request? = some req →
      parseFieldOperations (req.fieldOperations?.getD []) = .ok ops →
      safetyErrors env req ops ≠ [] →
      processFieldOperations env = (false, [])) ∧
    (∀ (env : ProcEnv) (req : OpsRequest),
      env.request? = some req → req.dryRun = true →
      (processFieldOperations env).2 = []) ∧
    (∀ (env : ProcEnv) (req : OpsRequest),
      env.request? = some req → req.dryRun = false →
      req.autoConfirm = false → env.userConfirms = false →
      processFieldOperations env = (false, [])) := by
  refine ⟨?_, ?_, ?_, ?_⟩
  · intro env hne
    unfold processFieldOperations at hne
    cases hreq : env.request? with
    | none => rw [hreq] at hne; exact absurd rfl hne
    | some req =>
      rw [hreq] at hne
      dsimp only at hne
      cases hval : validateOperationsFile req with
      | error e => rw [hval] at hne; exact absurd rfl hne
      | ok u =>
        cases u
        rw [hval] at hne
        dsimp only at hne
        cases hparse : parseFieldOperations (req.fieldOperations?.getD []) with
        | error e => rw [hparse] at hne; exact absurd rfl hne
        | ok ops =>
          rw [hparse] at hne
          dsimp only at hne
          refine ⟨req, ops, rfl, hval, hparse, ?_⟩
          by_cases hsafe : safetyErrors env req ops = []
          · rw [if_neg (by simp [hsafe])] at hne
            refine ⟨hsafe, ?_⟩
            cases hdry : req.dryRun with
            | true => rw [if_pos (by rw [hdry])] at hne; exact absurd rfl hne
            | false =>
              rw [if_neg (by rw [hdry]; decide)] at hne
              refine ⟨rfl, ?_⟩
              by_cases hgate : (!req.autoConfirm && !env.userConfirms) = true
              · rw [if_pos hgate] at hne
                exact absurd rfl hne
              · cases hac : req.autoConfirm with
                | true => exact Or.inl rfl
                | false =>
                  cases huc : env.userConfirms with
                  | true => exact Or.inr rfl
                  | false => exact absurd (by rw [hac, huc]; rfl) hgate
          · rw [if_pos (by simp [hsafe])] at hne
            exact absurd rfl hne
  · intro env req ops hreq hparse hsafe
    unfold processFieldOperations
    rw [hreq]
    dsimp only
    cases hval : validateOperationsFile req with
    | error e => rfl
    | ok u =>
      cases u
      rw [hparse]
      dsimp only
      rw [if_pos (by simp [hsafe])]
  · intro env req hreq hdry
    unfold processFieldOperations
    rw [hreq]
    dsimp only
    cases hval : validateOperationsFile req with
    | error e => rfl
    | ok u =>
      cases u
      cases hparse : parseFieldOperations (req.fieldOperations?.getD []) with
      | error e => rfl
      | ok ops =>
        dsimp only
        by_cases hsafe : safetyErrors env req ops = []
        · rw [if_neg (by simp [hsafe]), if_pos (by rw [hdry])]
        · rw [if_pos (by simp [hsafe])]
  · intro env req hreq hdry hac huc
    unfold processFieldOperations
    rw [hreq]
    dsimp only
    cases hval : validateOperationsFile req with
    | error e => rfl
    | ok u =>
      cases u
      cases hparse : parseFieldOperations (req.fieldOperations?.getD []) with
      | error e => rfl
      | ok ops =>
        dsimp only
        by_cases hsafe : safetyErrors env req ops = []
        · rw [if_neg (by simp [hsafe]), if_neg (by rw [hdry]; decide),
              if_pos (by rw [hac, huc]; rfl)]
        · rw [if_pos (by simp [hsafe])]

/-- The operations request shared by the concrete C2 scenarios. -/
def c2DemoRequest (dryRun autoConfirm : Bool) (fieldName : String) : OpsRequest :=
  { operationType? := some "modify_service"
    targetService? := some ⟨some "user", some "users", none, none⟩
    fieldOperations? := some [⟨some "remove", ⟨none, some fieldName, none⟩⟩]
    dryRun := dryRun
    autoConfirm := autoConfirm }

/-- A concrete environment around `c2DemoRequest`. -/
def c2DemoEnv (dryRun autoConfirm userConfirms : Bool) (fieldName : String) : ProcEnv :=
  { request? := some (c2DemoRequest dryRun autoConfirm fieldName)
    migrationFiles := []
    userConfirms := userConfirms
    backupOutcome? := some "b1"
    applyRaises := false
    restoreSucceeds := true }

/-- Witness for C2: a fully approved run has a nonempty trace, forcing all
gate conditions; a safety-blocked run, a dry run, and an aborted run each
terminate with an empty trace. -/
theorem c2_witness :
    (∃ req ops, (c2DemoEnv false true false "legacy_flag").request? = some req ∧
      validateOperationsFile req = .ok () ∧
      parseFieldOperations (req.fieldOperations?.getD []) = .ok ops ∧
      safetyErrors (c2DemoEnv false true false "legacy_flag") req ops = [] ∧
      req.dryRun = false ∧
      (req.autoConfirm = true ∨ (c2DemoEnv false true false "legacy_flag").userConfirms = true)) ∧
    processFieldOperations (c2DemoEnv false true true "id") = (false, []) ∧
    (processFieldOperations (c2DemoEnv true false true "legacy_flag")).2 = [] ∧
    processFieldOperations (c2DemoEnv false false false "legacy_flag") = (false, []) :=
  ⟨c2_no_mutation_before_approval.1 (c2DemoEnv false true false "legacy_flag") (by decide),
   c2_no_mutation_before_approval.2.1 (c2DemoEnv false true true "id")
     (c2DemoRequest false true "id") [⟨"remove", ⟨none, some "id", none⟩⟩] rfl rfl (by decide),
   c2_no_mutation_before_approval.2.2.1 (c2DemoEnv true false true "legacy_flag")
     (c2DemoRequest true false "legacy_flag") rfl rfl,
   c2_no_mutation_before_approval.2.2.2 (c2DemoEnv false false false "legacy_flag")
     (c2DemoRequest false false "legacy_flag") rfl rfl rfl rfl⟩

/-! ## C9 -/

/-- Modelled from the spec: model-file rewriting that applies the
operations in exactly the given order (the claim asserts step 7b uses the
reverse of the operation list as that order for every artifact). -/
def applyModelOperationsOrdSpec (si : ServiceInfo) (st : JStructure)
    (order : List FieldOperation) : String :=
  let ex := existingFieldsOf st
  let classStart := findLastIdxSat
    (fun l => containsSubstr l "public class" && containsSubstr l (si.entity?.getD "")) st.lines
  joinWith "\n" (applyModelInOrder ex classStart ⟨st.lines, lastFieldLineOf st⟩ order).lines

/-- Modelled from the spec: DTO rewriting with explicit phase orders — the
field-block edits applied in `editOrder`, the accessor regeneration in
`accessorOrder`. -/
def applyDtoOperationsOrdSpec (dtoType : String) (st : JStructure)
    (editOrder accessorOrder : List FieldOperation) : Except String String := do
  let fin ← applyDtoInOrder dtoType (existingFieldsOf st) ⟨st.lines, lastFieldLineOf st⟩
    editOrder
  pure (joinWith "\n" (updateDtoMethods fin.lines accessorOrder dtoType))

/-- A small service file with one validation method and one conversion
method. -/
def c9DemoLines : List String :=
  ["public class FooService \x7b",
   "    public void validateCreateRequest(FooRequest request) \x7b",
   "        return;",
   "    \x7d",
   "    public Foo createEntityFromRequest(FooRequest request) \x7b",
   "        return foo;",
   "    \x7d",
   "\x7d"]

/-- First add operation: a required string field. -/
def c9FdAlpha : FieldDesc :=
  { name? := some "alpha_code", sqlType? := some "VARCHAR(20)", javaType? := some "String",
    nullable? := none, defaultValue? := none, primaryKey? := none, autoGenerated? := none,
    updateOnModify? := none, descr? := none, hasValidation := true, required? := some true }

/-- Second add operation: a required integer field. -/
def c9FdBeta : FieldDesc :=
  { name? := some "beta_num", sqlType? := some "INTEGER", javaType? := some "Integer",
    nullable? := none, defaultValue? := none, primaryKey? := none, autoGenerated? := none,
    updateOnModify? := none, descr? := none, hasValidation := true, required? := some true }

/-- The two-element operation list of the C9 scenario. -/
def c9Ops : List FieldOperation :=
  [⟨"add", ⟨some c9FdAlpha, none, none⟩⟩, ⟨"add", ⟨some c9FdBeta, none, none⟩⟩]

/-- The service info of the C9 scenario. -/
def c9DemoSI : ServiceInfo := ⟨"foo", "foos", none, none⟩

/-- The parsed structure of the C9 service file. -/
def c9DemoSt : JStructure := ⟨c9DemoLines, []⟩

set_option maxRecDepth 4096 in
/-- Counterexample to **C9** as stated: for the service artifact, applying
two add operations is NOT reverse-order application — the code iterates the
operation list forward (`for operation in operations`), so the generated
validation checks and field mappings appear in list order, not reversed. -/
theorem c9_service_rewrite_not_reverse_order :
    applyServiceOperations c9DemoSI c9DemoSt c9Ops ≠
      applyServiceOperationsRevSpec c9DemoSI c9DemoSt c9Ops := by
  decide

set_option maxRecDepth 8192 in
/-- **C9 (amended).** The model-file rewrite and the DTO field-block
rewrite apply the operations in reverse order of the operation list (the
DTO accessor-regeneration phase then runs forward); the service-file
rewrite applies the operations in forward list order. On the concrete C9
scenario the service rewrite emits the snippets in list order. -/
theorem c9_rewrite_iteration_order :
    (∀ (si : ServiceInfo) (st : JStructure) (ops : List FieldOperation),
      applyModelOperations si st ops = applyModelOperationsOrdSpec si st ops.reverse) ∧
    (∀ (dtoType : String) (st : JStructure) (ops : List FieldOperation),
      applyDtoOperations dtoType st ops = applyDtoOperationsOrdSpec dtoType st ops.reverse ops) ∧
    (∀ (si : ServiceInfo) (st : JStructure) (ops : List FieldOperation),
      applyServiceOperations si st ops = joinWith "\n" (applyServiceInOrder si st.lines ops)) ∧
    applyServiceOperations c9DemoSI c9DemoSt c9Ops =
      "public class FooService \x7b\n    public void validateCreateRequest(FooRequest request) \x7b\n        if (!StringUtils.hasText(request.getAlphaCode())) \x7b\n            throw new BusinessException(\"Alpha Code is required\");\n        \x7d\n        if (request.getBetaNum() == null) \x7b\n            throw new BusinessException(\"Beta Num is required\");\n        \x7d\n        return;\n    \x7d\n    public Foo createEntityFromRequest(FooRequest request) \x7b\n        entity.setAlphaCode(request.getAlphaCode());\n        entity.setBetaNum(request.getBetaNum());\n        return foo;\n    \x7d\n\x7d" :=
  ⟨fun _ _ _ => rfl, fun _ _ _ => rfl, fun _ _ _ => rfl, by decide⟩

/-! ## C4 -/

/-- Lookup distributes over tree concatenation (first tree wins). -/
lemma fsLookup_append (l1 l2 : FS) (q : FPath) :
    fsLookup (l1 ++ l2) q =
      match fsLookup l1 q with
      | some c => some c
      | none => fsLookup l2 q := by
  induction l1 with
  | nil => rfl
  | cons pc rest ih =>
    rcases pc with ⟨p, c⟩
    by_cases h : p = q
    · simp [fsLookup, h]
    · simp [fsLookup, h, ih]

/-- Lookup through a key filter. -/
lemma fsLookup_keyFilter (f : FPath → Bool) (l : FS) (q : FPath) :
    fsLookup (keyFilter f l) q = if f q then fsLookup l q else none := by
  induction l with
  | nil => simp [keyFilter, fsLookup]
  | cons pc rest ih =>
    rcases pc with ⟨p, c⟩
    simp only [keyFilter] at ih ⊢
    rw [List.filter_cons]
    by_cases hpq : p = q
    · subst hpq
      cases hfp : f p with
      | true =>
        rw [if_pos (by simp [hfp]), fsLookup, if_pos rfl, if_pos (by simp [hfp]),
            fsLookup, if_pos rfl]
      | false =>
        rw [if_neg (by simp [hfp]), ih, if_neg (by simp [hfp]), if_neg (by simp [hfp])]
    · cases hfp : f p with
      | true =>
        rw [if_pos (by simp [hfp]), fsLookup, if_neg hpq, ih]
        cases hfq : f q with
        | true => rw [if_pos (by simp [hfq]), if_pos (by simp [hfq]), fsLookup, if_neg hpq]
        | false => rw [if_neg (by simp [hfq]), if_neg (by simp [hfq])]
      | false =>
        rw [if_neg (by simp [hfp]), ih]
        cases hfq : f q with
        | true => rw [if_pos (by simp [hfq]), if_pos (by simp [hfq]), fsLookup, if_neg hpq]
        | false => rw [if_neg (by simp [hfq]), if_neg (by simp [hfq])]

/-- A successful lookup exhibits a member of the tree. -/
lemma fsLookup_mem (l : FS) (q : FPath) (c : String)
    (h : fsLookup l q = some c) : (q, c) ∈ l := by
  induction l with
  | nil => exact absurd h (by simp [fsLookup])
  | cons pc rest ih =>
    rcases pc with ⟨p, c2⟩
    by_cases hpq : p = q
    · subst hpq
      rw [fsLookup, if_pos rfl] at h
      injection h with h2
      subst h2
      exact List.mem_cons_self _ _
    · rw [fsLookup, if_neg hpq] at h
      exact List.mem_cons_of_mem _ (ih h)

/-- Lookup in the concatenated per-root copies of `create_backup`: a path
under some root resolves to its live content, anything else to nothing. -/
lemma fsLookup_copy_foldl (live : FS) (q : FPath) :
    ∀ (roots : List FPath) (acc : FS),
      fsLookup (roots.foldl (fun a r => a ++ copyTree live r) acc) q =
        match fsLookup acc q with
        | some c => some c
        | none =>
          if roots.any (fun r => r.isPrefixOf q) then fsLookup live q else none := by
  intro roots
  induction roots with
  | nil =>
    intro acc
    cases h : fsLookup acc q <;> simp [h]
  | cons r rs ih =>
    intro acc
    rw [List.foldl_cons, ih (acc ++ copyTree live r), fsLookup_append]
    cases hacc : fsLookup acc q with
    | some c => rfl
    | none =>
      simp only [copyTree, fsLookup_keyFilter, List.any_cons]
      by_cases hr : r.isPrefixOf q = true
      · simp only [hr]
        cases hl : fsLookup live q <;> simp [hl]
      · have hr2 : r.isPrefixOf q = false := by
          cases hv : r.isPrefixOf q
          · rfl
          · exact absurd hv hr
        simp [hr2]

/-- Lookup in a fresh snapshot: exactly the live files under the recorded
roots were copied. -/
lemma createBackup_files_lookup (serviceName bid : String) (live : FS) (q : FPath) :
    fsLookup (createBackup serviceName bid live).files q =
      if (backupRoots serviceName).any (fun r => r.isPrefixOf q) then
        fsLookup live q
      else none := by
  unfold createBackup
  rw [fsLookup_copy_foldl live q (backupRoots serviceName) []]
  rfl

/-- A restore iteration for a root not above `q` leaves the lookup at `q`
unchanged. -/
lemma restoreOne_lookup_of_notPre (bk live : FS) (r q : FPath)
    (h : r.isPrefixOf q = false) :
    fsLookup (restoreOne bk live r) q = fsLookup live q := by
  unfold restoreOne
  by_cases hex : existsUnderB bk r = true
  · rw [if_pos hex]
    by_cases hdir : isDirB bk r = true
    · rw [if_pos hdir, fsLookup_append, fsLookup_keyFilter, fsLookup_keyFilter]
      rw [if_pos (show (!(r.isPrefixOf q)) = true by rw [h]; rfl)]
      cases hl : fsLookup live q with
      | some c => rfl
      | none => rw [if_neg (by rw [h]; simp)]
    · rw [if_neg hdir]
      cases hbkr : fsLookup bk r with
      | none => rfl
      | some c =>
        have hrq : r ≠ q := by
          intro hcontra
          subst hcontra
          rw [List.isPrefixOf_iff_prefix.mpr (List.prefix_refl r)] at h
          exact absurd h (by simp)
        unfold setFile
        rw [fsLookup, if_neg hrq, fsLookup_keyFilter,
            if_pos (bne_iff_ne.mpr (fun hqr => hrq hqr.symm))]
  · rw [if_neg hex]

/-- A restore iteration for a root above `q` installs the snapshot's
content at `q`. -/
lemma restoreOne_lookup_of_pre (bk live : FS) (r q : FPath) (c : String)
    (hpre : r.isPrefixOf q = true) (hbk : fsLookup bk q = some c) :
    fsLookup (restoreOne bk live r) q = some c := by
  have hmem : (q, c) ∈ bk := fsLookup_mem bk q c hbk
  have hex : existsUnderB bk r = true := by
    rw [existsUnderB, List.any_eq_true]
    exact ⟨(q, c), hmem, hpre⟩
  unfold restoreOne
  rw [if_pos hex]
  by_cases hdir : isDirB bk r = true
  · rw [if_pos hdir, fsLookup_append, fsLookup_keyFilter]
    rw [if_neg (show ¬ ((!(r.isPrefixOf q)) = true) by rw [hpre]; simp)]
    rw [fsLookup_keyFilter, if_pos hpre, hbk]
  · rw [if_neg hdir]
    have hqr : q = r := by
      by_contra hne
      apply hdir
      rw [isDirB, List.any_eq_true]
      refine ⟨(q, c), hmem, ?_⟩
      rw [hpre, bne_iff_ne.mpr hne]
      rfl
    subst hqr
    rw [hbk]
    unfold setFile
    rw [fsLookup, if_pos rfl]

/-- The restore loop over the recorded roots: when some root lies above `q`
and the snapshot holds content for `q`, the final tree holds it too;
otherwise the live tree is untouched at `q`. -/
lemma restore_foldl_lookup (bk : FS) (q : FPath) (c : String)
    (hbk : fsLookup bk q = some c) :
    ∀ (roots : List FPath) (live : FS),
      fsLookup (roots.foldl (restoreOne bk) live) q =
        if roots.any (fun r => r.isPrefixOf q) then some c else fsLookup live q := by
  intro roots
  induction roots with
  | nil => intro live; simp
  | cons r rs ih =>
    intro live
    rw [List.foldl_cons, ih (restoreOne bk live r)]
    cases hr : r.isPrefixOf q with
    | true =>
      rw [restoreOne_lookup_of_pre bk live r q c hr hbk]
      simp [List.any_cons, hr]
    | false =>
      rw [restoreOne_lookup_of_notPre bk live r q hr]
      simp [List.any_cons, hr]

/-- **C4.** Creating a snapshot and then restoring it by its backup id
reproduces the content of every file that existed under the backed-up paths
at snapshot time — whatever happened to the live tree in between — and the
restore reports success. -/
theorem c4_snapshot_roundtrip (serviceName bid : String) (live0 liveMod : FS)
    (q : FPath) (c : String)
    (hq : ∃ r ∈ backupRoots serviceName, r.isPrefixOf q = true)
    (hfile : fsLookup live0 q = some c) :
    (restoreBackup [createBackup serviceName bid live0] bid liveMod).1 = true ∧
    fsLookup (restoreBackup [createBackup serviceName bid live0] bid liveMod).2 q = some c := by
  have hany : (backupRoots serviceName).any (fun r => r.isPrefixOf q) = true := by
    rw [List.any_eq_true]
    rcases hq with ⟨r, hr, hpre⟩
    exact ⟨r, hr, hpre⟩
  have hfind : ([createBackup serviceName bid live0].find?
      (fun s => s.backupId = bid)) = some (createBackup serviceName bid live0) := by
    simp [createBackup]
  have hbk : fsLookup (createBackup serviceName bid live0).files q = some c := by
    rw [createBackup_files_lookup, if_pos hany, hfile]
  unfold restoreBackup
  rw [hfind]
  dsimp only
  refine ⟨rfl, ?_⟩
  have hroots : (createBackup serviceName bid live0).filesBackedUp =
      backupRoots serviceName := rfl
  rw [hroots, restore_foldl_lookup (createBackup serviceName bid live0).files q c hbk,
      if_pos hany]

/-- Witness for C4: a migration file is modified and a model file deleted
after the snapshot; restoring brings both back byte-identically and
reports success. -/
theorem c4_witness :
    (restoreBackup
        [createBackup "user" "b1"
          [(["src", "main", "resources", "db", "migration", "V1__init.sql"], "CREATE TABLE users;"),
           (["src", "main", "java", "com", "vira", "user", "model", "User.java"], "class User")]]
        "b1"
        [(["src", "main", "resources", "db", "migration", "V1__init.sql"], "DROP TABLE users;")]).1
      = true ∧
    fsLookup
      (restoreBackup
        [createBackup "user" "b1"
          [(["src", "main", "resources", "db", "migration", "V1__init.sql"], "CREATE TABLE users;"),
           (["src", "main", "java", "com", "vira", "user", "model", "User.java"], "class User")]]
        "b1"
        [(["src", "main", "resources", "db", "migration", "V1__init.sql"], "DROP TABLE users;")]).2
      (["src", "main", "resources", "db", "migration", "V1__init.sql"]) =
      some "CREATE TABLE users;" :=
  c4_snapshot_roundtrip "user" "b1"
    [(["src", "main", "resources", "db", "migration", "V1__init.sql"], "CREATE TABLE users;"),
     (["src", "main", "java", "com", "vira", "user", "model", "User.java"], "class User")]
    [(["src", "main", "resources", "db", "migration", "V1__init.sql"], "DROP TABLE users;")]
    (["src", "main", "resources", "db", "migration", "V1__init.sql"]) "CREATE TABLE users;"
    ⟨["src", "main", "resources", "db", "migration"], by decide, by decide⟩
    (by decide)

end Vira
